import Mathlib

/-!
# aeron-bench: publisher (`pub.c`) and subscriber (`sub.c`)

A shallow embedding of the record layouts of `nms_messages.h`, of the two
publish loops of `pub.c` (exclusive `try_claim` loop and shared `offer` loop)
and of the subscriber's `poll_handler` of `sub.c`, followed by the properties
established about them.

Conventions.
* Machine integers are natural numbers reduced modulo `2^w` wherever the C code
  stores into a `w`-bit object.
* Bytes are natural numbers below 256; a buffer is a `List Nat`.
* The three things the loops ask of the outside world (the `running` flag read
  by `is_running()`, the value returned by `try_claim`/`offer`, the clock) are
  streams indexed by the number of calls made so far; the state counts the calls.
-/

namespace AeronBench

/-! ## `xtypes.h` -/

/-- Size in bytes of `xuint8` (`uint8_t`). -/
def sizeof_xuint8 : Nat := 1

/-- Size in bytes of `xuint32` (`uint32_t`). -/
def sizeof_xuint32 : Nat := 4

/-- Size in bytes of `xuint64` (`uint64_t`). -/
def sizeof_xuint64 : Nat := 8

/-- Size of `XC_HITIME`, a typedef of `xuint64`. -/
def sizeof_XC_HITIME : Nat := sizeof_xuint64

/-- Size of `XC_VOLUME`, a typedef of `xuint32`. -/
def sizeof_XC_VOLUME : Nat := sizeof_xuint32

/-- Number of values of a 64-bit object. -/
def UINT64_MOD : Nat := 18446744073709551616

/-- Conversion of a C `int` expression to `xuint8`. -/
def to_xuint8 (v : Int) : Nat := (v % 256).toNat

/-- Conversion of a C `int` expression to `xuint32`. -/
def to_xuint32 (v : Int) : Nat := (v % 4294967296).toNat

/-! ## `nms_messages.h`: packed record layouts -/

/-- One member of a struct declaration: its name, the size of its element type
and the number of elements (1 for a scalar member). -/
structure member where
  name : String
  elem_size : Nat
  count : Nat

/-- Bytes occupied by a member. -/
def member.width (m : member) : Nat := m.elem_size * m.count

/-- Members of `struct nms_opra_quote_t`, in declaration order. -/
def nms_opra_quote_t_members : List member :=
  [ ⟨"symbol", sizeof_xuint8, 5⟩,
    ⟨"expiration", sizeof_xuint8, 3⟩,
    ⟨"timestamp", sizeof_XC_HITIME, 1⟩,
    ⟨"strike_price", sizeof_xuint32, 1⟩,
    ⟨"bid_price", sizeof_xuint32, 1⟩,
    ⟨"ask_price", sizeof_xuint32, 1⟩,
    ⟨"bid_size", sizeof_XC_VOLUME, 1⟩,
    ⟨"ask_size", sizeof_XC_VOLUME, 1⟩,
    ⟨"bid_exchange", sizeof_xuint8, 1⟩,
    ⟨"ask_exchange", sizeof_xuint8, 1⟩,
    ⟨"condition", sizeof_xuint8, 1⟩ ]

/-- Members of `struct nms_opra_trade_t`, in declaration order. -/
def nms_opra_trade_t_members : List member :=
  [ ⟨"symbol", sizeof_xuint8, 5⟩,
    ⟨"expiration", sizeof_xuint8, 3⟩,
    ⟨"timestamp", sizeof_XC_HITIME, 1⟩,
    ⟨"strike_price", sizeof_xuint32, 1⟩,
    ⟨"premium_price", sizeof_xuint32, 1⟩,
    ⟨"volume", sizeof_XC_VOLUME, 1⟩,
    ⟨"exchange", sizeof_xuint8, 1⟩,
    ⟨"condition", sizeof_xuint8, 1⟩ ]

/-- Layout under `#pragma pack(1)`: every member is placed at the first free
byte, so the offsets are the running sums of the widths, starting at `base`. -/
def packed_offsets : Nat → List member → List (String × Nat)
  | _, [] => []
  | base, m :: ms => (m.name, base) :: packed_offsets (base + m.width) ms

/-- Size of a struct under `#pragma pack(1)`: the end of its last member. -/
def packed_sizeof : Nat → List member → Nat
  | base, [] => base
  | base, m :: ms => packed_sizeof (base + m.width) ms

/-- Value of `sizeof(struct nms_opra_quote_t)`. -/
def sizeof_nms_opra_quote_t : Nat := packed_sizeof 0 nms_opra_quote_t_members

/-- Value of `sizeof(struct nms_opra_trade_t)`. -/
def sizeof_nms_opra_trade_t : Nat := packed_sizeof 0 nms_opra_trade_t_members

/-- Value of `sizeof(union option_t)`: the larger of its two members. -/
def sizeof_option_t : Nat := max sizeof_nms_opra_quote_t sizeof_nms_opra_trade_t

/-- A value of `struct nms_opra_quote_t`. -/
structure nms_opra_quote_t where
  symbol : Fin 5 → Nat
  expiration : Fin 3 → Nat
  timestamp : Nat
  strike_price : Nat
  bid_price : Nat
  ask_price : Nat
  bid_size : Nat
  ask_size : Nat
  bid_exchange : Nat
  ask_exchange : Nat
  condition : Nat

/-- A value of `struct nms_opra_trade_t`. -/
structure nms_opra_trade_t where
  symbol : Fin 5 → Nat
  expiration : Fin 3 → Nat
  timestamp : Nat
  strike_price : Nat
  premium_price : Nat
  volume : Nat
  exchange : Nat
  condition : Nat

/-- The `w` bytes of an unsigned integer, least significant first. -/
def le_bytes : Nat → Nat → List Nat
  | 0, _ => []
  | w + 1, v => v % 256 :: le_bytes w (v / 256)

/-- Object representation of a `w`-byte unsigned integer in the byte order of
the machine (the records are copied as raw memory, so the order is native). -/
def int_bytes (big_endian : Bool) (w v : Nat) : List Nat :=
  if big_endian then (le_bytes w v).reverse else le_bytes w v

/-- Object representation of an array of `n` bytes. -/
def array_bytes {n : Nat} (a : Fin n → Nat) : List Nat :=
  List.ofFn (fun k => a k % 256)

/-- Raw bytes of a packed `struct nms_opra_quote_t`: the members one after the
other, in declaration order. -/
def quote_bytes (be : Bool) (q : nms_opra_quote_t) : List Nat :=
  array_bytes q.symbol ++ array_bytes q.expiration ++
  int_bytes be sizeof_XC_HITIME q.timestamp ++
  int_bytes be sizeof_xuint32 q.strike_price ++
  int_bytes be sizeof_xuint32 q.bid_price ++
  int_bytes be sizeof_xuint32 q.ask_price ++
  int_bytes be sizeof_XC_VOLUME q.bid_size ++
  int_bytes be sizeof_XC_VOLUME q.ask_size ++
  int_bytes be sizeof_xuint8 q.bid_exchange ++
  int_bytes be sizeof_xuint8 q.ask_exchange ++
  int_bytes be sizeof_xuint8 q.condition

/-- Raw bytes of a packed `struct nms_opra_trade_t`. -/
def trade_bytes (be : Bool) (t : nms_opra_trade_t) : List Nat :=
  array_bytes t.symbol ++ array_bytes t.expiration ++
  int_bytes be sizeof_XC_HITIME t.timestamp ++
  int_bytes be sizeof_xuint32 t.strike_price ++
  int_bytes be sizeof_xuint32 t.premium_price ++
  int_bytes be sizeof_XC_VOLUME t.volume ++
  int_bytes be sizeof_xuint8 t.exchange ++
  int_bytes be sizeof_xuint8 t.condition

/-- Store `src` into `buf` starting at byte `off` (a struct assignment through
a cast pointer, or a single byte store); bytes outside the range are kept. -/
def store_at (buf : List Nat) (off : Nat) (src : List Nat) : List Nat :=
  buf.take off ++ src ++ buf.drop (off + src.length)

/-- The bytes of `buf` in the range `off .. off + len - 1`. -/
def slice (buf : List Nat) (off len : Nat) : List Nat :=
  (buf.drop off).take len

/-! ## `pub.c`: the publisher -/

/-- Modelled from the spec: the transport result `BackPressured`; the code
`AERON_PUBLICATION_BACK_PRESSURED` is declared in the Aeron client header
`aeronc.h`, which is not part of the repository. -/
def AERON_PUBLICATION_BACK_PRESSURED : Int := -2

/-- Modelled from the spec: the transport result `AdminAction`
(`AERON_PUBLICATION_ADMIN_ACTION` of `aeronc.h`). -/
def AERON_PUBLICATION_ADMIN_ACTION : Int := -3

/-- Modelled from the spec: the transport result `Closed`
(`AERON_PUBLICATION_CLOSED` of `aeronc.h`). -/
def AERON_PUBLICATION_CLOSED : Int := -4

/-- Modelled from the spec: the transport result `Error`
(`AERON_PUBLICATION_ERROR` of `aeronc.h`). -/
def AERON_PUBLICATION_ERROR : Int := -6

/-- What the publisher observes of the outside world.
`running n` is the value returned by the `n`-th call of `is_running()`,
`transport n` the value returned by the `n`-th call of
`aeron_exclusive_publication_try_claim` / `aeron_publication_offer`,
`clock n` the value returned by the `n`-th call of `aeron_nano_clock()`
inside the loop (calls are counted from 0); `big_endian` is the byte order of
the machine. -/
structure Env where
  big_endian : Bool
  running : Nat → Bool
  transport : Nat → Int
  clock : Nat → Nat

/-- One call of `try_claim` / `offer`, as seen by the transport: the values of
`i` and `message_sent_count` when the call was made, the length argument, the
bytes passed (`offer` only; `try_claim` passes none) and the value returned. -/
structure attempt where
  index : Nat
  sent_count : Nat
  length : Nat
  data : List Nat
  result : Int
  deriving DecidableEq

/-- A message accepted by the transport: committed after a successful claim, or
passed to an `offer` call that returned a position. -/
structure delivery where
  index : Nat
  data : List Nat
  deriving DecidableEq

/-- Local variables of `main` in `pub.c` that the publish loops use, together
with the call counters of the three external streams and the record of what was
handed to the transport. -/
structure pub_state where
  i : Nat
  back_pressure_count : Nat
  message_sent_count : Nat
  message_length : Nat
  trade : nms_opra_trade_t
  quote : nms_opra_quote_t
  message : List Nat
  n_running : Nat
  n_transport : Nat
  n_clock : Nat
  attempts : List attempt
  delivered : List delivery

/-- The initialiser of `trade`: `.symbol = "AAPL"`, `.expiration = {'T', 23, 18}`;
members not named are zero. -/
def trade_template : nms_opra_trade_t :=
  { symbol := fun k => [65, 65, 80, 76, 0].getD k.val 0
    expiration := fun k => [84, 23, 18].getD k.val 0
    timestamp := 0
    strike_price := 123456
    premium_price := 987654
    volume := 111
    exchange := 65
    condition := 97 }

/-- The initialiser of `quote`: `.symbol = "AAPL"`, `.expiration = {'L', 23, 18}`;
members not named are zero. -/
def quote_template : nms_opra_quote_t :=
  { symbol := fun k => [65, 65, 80, 76, 0].getD k.val 0
    expiration := fun k => [76, 23, 18].getD k.val 0
    timestamp := 0
    strike_price := 0
    bid_price := 123456
    ask_price := 987654
    bid_size := 111
    ask_size := 999
    bid_exchange := 65
    ask_exchange := 90
    condition := 97 }

/-- State on entry to either publish loop: `i = 0`, both counters 0,
`message_length = 0`, the two templates, and `message` the zeroed buffer of
`sizeof(union option_t)` bytes (allocated on the shared path only). -/
def pub_init : pub_state :=
  { i := 0
    back_pressure_count := 0
    message_sent_count := 0
    message_length := 0
    trade := trade_template
    quote := quote_template
    message := List.replicate sizeof_option_t 0
    n_running := 0
    n_transport := 0
    n_clock := 0
    attempts := []
    delivered := [] }

/-- Where control is after running part of a loop: back at the loop condition
after a complete pass (`again`), past the loop (`leave`: the condition was
false or a `break` was taken), or still inside because the bound on the number
of passes was used up (`spent`). Each carries the state reached. -/
inductive loop_step where
  | again : pub_state → loop_step
  | leave : pub_state → loop_step
  | spent : pub_state → loop_step

/-- Whether the loop has been left. -/
def loop_step.left : loop_step → Bool
  | loop_step.leave _ => true
  | _ => false

/-- The state carried by a `loop_step`. -/
def loop_step.state : loop_step → pub_state
  | loop_step.again s => s
  | loop_step.leave s => s
  | loop_step.spent s => s

/-- Exclusive path, lines 306-327: the branch taken after a successful claim.
The claimed region has `message_length` bytes; the tag is stored at byte 0 and
the mutated template at byte 1, then the claim is committed.
Character constants: 'a' = 97, 'A' = 65, 'Z' = 90, 't' = 116, 'q' = 113. -/
def exclusive_fill (env : Env) (s : pub_state) : pub_state :=
  let shift : Nat := to_xuint8 ((s.i % 26 : Nat) : Int)
  let region : List Nat := List.replicate s.message_length 0
  if s.i % 2 = 0 then
    let trade : nms_opra_trade_t :=
      { s.trade with
        timestamp := env.clock s.n_clock % UINT64_MOD
        condition := to_xuint8 (97 + (shift : Int))
        exchange := to_xuint8 (65 + (shift : Int))
        volume := to_xuint32 (100 + (shift : Int)) }
    let data := store_at (store_at region 0 [116]) 1 (trade_bytes env.big_endian trade)
    { s with
      trade := trade
      n_clock := s.n_clock + 1
      delivered := s.delivered ++ [⟨s.i, data⟩] }
  else
    let quote : nms_opra_quote_t :=
      { s.quote with
        timestamp := env.clock s.n_clock % UINT64_MOD
        condition := to_xuint8 (97 + (shift : Int))
        ask_exchange := to_xuint8 (65 + (shift : Int))
        bid_exchange := to_xuint8 (90 - (shift : Int))
        ask_size := to_xuint32 (201 + (shift : Int))
        bid_size := to_xuint32 (199 - (shift : Int)) }
    let data := store_at (store_at region 0 [113]) 1 (quote_bytes env.big_endian quote)
    { s with
      quote := quote
      n_clock := s.n_clock + 1
      delivered := s.delivered ++ [⟨s.i, data⟩] }

/-- Exclusive path, lines 285-334: the loop condition followed by one pass
through the body. `is_running()` is only called when the first operand of
`&&` is true. -/
def exclusive_iteration (env : Env) (messages : Nat) (s : pub_state) : loop_step :=
  if messages = 0 ∨ s.i < messages then
    let run := env.running s.n_running
    let s1 : pub_state := { s with n_running := s.n_running + 1 }
    if run then
      let s2 : pub_state :=
        { s1 with
          message_length :=
            if s1.i % 2 = 0 then sizeof_nms_opra_trade_t + 1 else sizeof_nms_opra_quote_t + 1 }
      let result := env.transport s2.n_transport
      let s3 : pub_state :=
        { s2 with
          n_transport := s2.n_transport + 1
          attempts :=
            s2.attempts ++ [⟨s2.i, s2.message_sent_count, s2.message_length, [], result⟩] }
      if result = AERON_PUBLICATION_ERROR then
        loop_step.leave s3
      else if result < 0 then
        loop_step.again
          { s3 with back_pressure_count := (s3.back_pressure_count + 1) % UINT64_MOD }
      else
        let s4 := exclusive_fill env s3
        loop_step.again
          { s4 with
            message_sent_count := (s4.message_sent_count + 1) % UINT64_MOD
            i := (s4.i + 1) % UINT64_MOD }
    else loop_step.leave s1
  else loop_step.leave s

/-- The exclusive publish loop, run for at most `fuel` passes. -/
def exclusive_loop (env : Env) (messages : Nat) : Nat → pub_state → loop_step
  | 0, s => loop_step.spent s
  | fuel + 1, s =>
    match exclusive_iteration env messages s with
    | loop_step.again s1 => exclusive_loop env messages fuel s1
    | loop_step.leave s1 => loop_step.leave s1
    | loop_step.spent s1 => loop_step.spent s1

/-- Shared path, lines 340-351: the record for index `i` is copied from its
template, with a fresh timestamp, to the start of `message`. -/
def offer_build (env : Env) (s : pub_state) : pub_state :=
  if s.i % 2 = 0 then
    let trade : nms_opra_trade_t :=
      { s.trade with timestamp := env.clock s.n_clock % UINT64_MOD }
    { s with
      message_length := sizeof_nms_opra_trade_t
      trade := trade
      n_clock := s.n_clock + 1
      message := store_at s.message 0 (trade_bytes env.big_endian trade) }
  else
    let quote : nms_opra_quote_t :=
      { s.quote with timestamp := env.clock s.n_clock % UINT64_MOD }
    { s with
      message_length := sizeof_nms_opra_quote_t
      quote := quote
      n_clock := s.n_clock + 1
      message := store_at s.message 0 (quote_bytes env.big_endian quote) }

/-- Shared path, lines 352-358: the inner `while (offer(...) < 0)` loop, run
for at most `fuel` offers. It is left when an offer returns a non-negative
value, or by `break` when `is_running()` is false after a negative one. -/
def offer_retry (env : Env) : Nat → pub_state → loop_step
  | 0, s => loop_step.spent s
  | fuel + 1, s =>
    let result := env.transport s.n_transport
    let data := slice s.message 0 s.message_length
    let s1 : pub_state :=
      { s with
        n_transport := s.n_transport + 1
        attempts := s.attempts ++ [⟨s.i, s.message_sent_count, s.message_length, data, result⟩] }
    if result < 0 then
      let s2 : pub_state :=
        { s1 with back_pressure_count := (s1.back_pressure_count + 1) % UINT64_MOD }
      let run := env.running s2.n_running
      let s3 : pub_state := { s2 with n_running := s2.n_running + 1 }
      if run then offer_retry env fuel s3 else loop_step.leave s3
    else loop_step.leave { s1 with delivered := s1.delivered ++ [⟨s1.i, data⟩] }

/-- Shared path, lines 338-364: the loop condition followed by one pass through
the body, the inner loop being given at most `fuel` offers. After the inner
loop, however it was left, `message_sent_count` and then `i` are incremented. -/
def offer_iteration (env : Env) (messages fuel : Nat) (s : pub_state) : loop_step :=
  if messages = 0 ∨ s.i < messages then
    let run := env.running s.n_running
    let s1 : pub_state := { s with n_running := s.n_running + 1 }
    if run then
      match offer_retry env fuel (offer_build env s1) with
      | loop_step.spent s2 => loop_step.spent s2
      | loop_step.again s2 => loop_step.spent s2
      | loop_step.leave s2 =>
        loop_step.again
          { s2 with
            message_sent_count := (s2.message_sent_count + 1) % UINT64_MOD
            i := (s2.i + 1) % UINT64_MOD }
    else loop_step.leave s1
  else loop_step.leave s

/-- The shared publish loop, run for at most `fuel` passes, each with at most
`fuel` offers. -/
def offer_loop (env : Env) (messages : Nat) : Nat → pub_state → loop_step
  | 0, s => loop_step.spent s
  | fuel + 1, s =>
    match offer_iteration env messages fuel s with
    | loop_step.again s1 => offer_loop env messages fuel s1
    | loop_step.leave s1 => loop_step.leave s1
    | loop_step.spent s1 => loop_step.spent s1

/-- The publish loop selected by `use_exclusive` (option `-x`), from the
initial state. -/
def publish_loop (use_exclusive : Bool) (env : Env) (messages fuel : Nat) : loop_step :=
  if use_exclusive then exclusive_loop env messages fuel pub_init
  else offer_loop env messages fuel pub_init

/-! ## `sub.c`: the subscriber's message handler -/

/-- The members of `handler_data_t` that `poll_handler` uses; `rate_reporter`
records whether the pointer is non-null. -/
structure handler_data_t where
  rate_reporter : Bool
  limit : Nat
  messages : Nat

/-- What `poll_handler` can change: the global `running` flag, the
`handler_data_t` passed as `clientd`, and the lengths passed on to
`rate_reporter_on_message`. -/
structure sub_state where
  running : Bool
  data : handler_data_t
  reported : List Nat

/-- The function `sigint_handler` of `sub.c`: clears `running`. -/
def sigint_handler (s : sub_state) : sub_state :=
  { s with running := false }

/-- The function `is_running` of `sub.c`. -/
def is_running (s : sub_state) : Bool := s.running

/-- The function `poll_handler` of `sub.c`, lines 94-100. The parameters
`buffer` and `header` are unused by the code; `buffer` is kept as an argument
to make that visible. -/
def poll_handler (s : sub_state) (_buffer : List Nat) (length : Nat) : sub_state :=
  let s1 : sub_state :=
    if s.data.rate_reporter then { s with reported := s.reported ++ [length] } else s
  let s2 : sub_state :=
    { s1 with data := { s1.data with messages := (s1.data.messages + 1) % UINT64_MOD } }
  if s2.data.limit ≠ 0 ∧ s2.data.messages ≥ s2.data.limit then sigint_handler s2 else s2

/-- The handler applied to a sequence of delivered messages, first to last. -/
def poll_messages (s : sub_state) (msgs : List (List Nat)) : sub_state :=
  msgs.foldl (fun st m => poll_handler st m m.length) s

/-! ## `sub.c`: the poll loop -/

/-- What the subscriber's poll loop observes of the outside world, per pass `n`
of the loop (counted from 0): whether a SIGINT was handled since the previous
pass (`sigint n`), the whole messages that the fragment assembler hands to
`poll_handler` during the `n`-th call of `aeron_subscription_poll`
(`dispatched n`), and the value that call returns (`fragments_read n`). -/
structure sub_env where
  sigint : Nat → Bool
  dispatched : Nat → List (List Nat)
  fragments_read : Nat → Int

/-- How the poll loop of `sub.c` (lines 260-275) was left: its condition was
false (`completed`), `goto cleanup` was taken after a negative poll result
(`failed`), or the bound on the number of passes was used up (`unfinished`). -/
inductive sub_outcome where
  | completed : sub_state → sub_outcome
  | failed : sub_state → sub_outcome
  | unfinished : sub_state → sub_outcome

/-- The poll loop of `sub.c`, lines 260-275, run for at most `fuel` passes
starting with pass `n`. -/
def sub_loop (env : sub_env) : Nat → Nat → sub_state → sub_outcome
  | 0, _, s => sub_outcome.unfinished s
  | fuel + 1, n, s =>
    let s0 : sub_state := if env.sigint n then sigint_handler s else s
    if is_running s0 then
      let s1 := poll_messages s0 (env.dispatched n)
      if env.fragments_read n < 0 then sub_outcome.failed s1
      else sub_loop env fuel (n + 1) s1
    else sub_outcome.completed s0

/-! ## Exit status of the two programs -/

/-- Value of `EXIT_SUCCESS` (`stdlib.h`). -/
def EXIT_SUCCESS : Int := 0

/-- Value of `EXIT_FAILURE` (`stdlib.h`). -/
def EXIT_FAILURE : Int := 1

/-- The function `main` of `pub.c` from line 159 on, as far as its return value
goes. `status` starts as `EXIT_FAILURE`; `setup_ok` tells whether every call
before the publish loop (lines 172-254) succeeded, each failure there going to
`cleanup`. After the publish loop, however it was left, line 391 sets
`status = EXIT_SUCCESS`. The result is `none` when the loop is not left within
`fuel` passes. -/
def pub_main (setup_ok use_exclusive : Bool) (env : Env) (messages fuel : Nat) :
    Option Int :=
  let status := EXIT_FAILURE
  if setup_ok then
    match publish_loop use_exclusive env messages fuel with
    | loop_step.leave _ => some EXIT_SUCCESS
    | loop_step.again _ => none
    | loop_step.spent _ => none
  else some status

/-- State of the subscriber on entry to its poll loop: `running` is true,
`data.limit` is the value of option `-m`, `data.messages` is 0 and
`data.rate_reporter` is set iff option `-P` was given. -/
def sub_init (show_rate_progress : Bool) (limit : Nat) : sub_state :=
  { running := true
    data := { rate_reporter := show_rate_progress, limit := limit, messages := 0 }
    reported := [] }

/-- The function `main` of `sub.c` from line 177 on, as far as its return value
goes. `status` starts as `EXIT_FAILURE`; `setup_ok` tells whether every call
before the poll loop (lines 186-254) succeeded. A negative poll result goes to
`cleanup` with `status` unchanged; when the loop condition becomes false,
line 295 sets `status = EXIT_SUCCESS`. -/
def sub_main (setup_ok show_rate_progress : Bool) (limit : Nat) (env : sub_env)
    (fuel : Nat) : Option Int :=
  let status := EXIT_FAILURE
  if setup_ok then
    match sub_loop env fuel 0 (sub_init show_rate_progress limit) with
    | sub_outcome.completed _ => some EXIT_SUCCESS
    | sub_outcome.failed _ => some status
    | sub_outcome.unfinished _ => none
  else some status

/-! ## Record kinds -/

/-- A trade record as the loops produce it: equal to the trade template on the
members that no loop writes. -/
def is_trade_record (t : nms_opra_trade_t) : Prop :=
  t.symbol = trade_template.symbol ∧ t.expiration = trade_template.expiration ∧
  t.strike_price = trade_template.strike_price ∧
  t.premium_price = trade_template.premium_price

/-- A quote record as the loops produce it: equal to the quote template on the
members that no loop writes. -/
def is_quote_record (q : nms_opra_quote_t) : Prop :=
  q.symbol = quote_template.symbol ∧ q.expiration = quote_template.expiration ∧
  q.strike_price = quote_template.strike_price ∧
  q.bid_price = quote_template.bid_price ∧ q.ask_price = quote_template.ask_price

/-- Exclusive path: the length claimed for an index is 31 when the index is even
and 40 when it is odd. -/
def exclusive_attempt_ok (a : attempt) : Prop :=
  a.length = if a.index % 2 = 0 then 31 else 40

/-- Exclusive path: a committed message is the tag 't' (116) and a trade record
when its index is even, the tag 'q' (113) and a quote record when it is odd. -/
def exclusive_delivery_ok (be : Bool) (m : delivery) : Prop :=
  (m.index % 2 = 0 → ∃ t, is_trade_record t ∧ m.data = 116 :: trade_bytes be t) ∧
  (m.index % 2 = 1 → ∃ q, is_quote_record q ∧ m.data = 113 :: quote_bytes be q)

/-- Shared path: what is passed to `offer` for an index is a trade record of 30
bytes when the index is even, a quote record of 39 bytes when it is odd. -/
def offer_data_ok (be : Bool) (index length : Nat) (data : List Nat) : Prop :=
  (index % 2 = 0 → length = 30 ∧ ∃ t, is_trade_record t ∧ data = trade_bytes be t) ∧
  (index % 2 = 1 → length = 39 ∧ ∃ q, is_quote_record q ∧ data = quote_bytes be q)

/-- Invariant of the exclusive loop. -/
def exclusive_inv (env : Env) (s : pub_state) : Prop :=
  is_trade_record s.trade ∧ is_quote_record s.quote ∧
  (∀ a ∈ s.attempts, exclusive_attempt_ok a) ∧
  (∀ m ∈ s.delivered, exclusive_delivery_ok env.big_endian m)

/-- Invariant of the shared loop. -/
def offer_inv (env : Env) (s : pub_state) : Prop :=
  is_trade_record s.trade ∧ is_quote_record s.quote ∧
  (∀ a ∈ s.attempts, offer_data_ok env.big_endian a.index a.length a.data) ∧
  (∀ m ∈ s.delivered, offer_data_ok env.big_endian m.index m.data.length m.data)

/-- The members of a trade that the exclusive path writes for index `i`, as
exact values: 'a' + shift, 'A' + shift and 100 + shift with `shift = i mod 26`. -/
def trade_varied (i : Nat) (t : nms_opra_trade_t) : Prop :=
  t.condition = 97 + i % 26 ∧ t.exchange = 65 + i % 26 ∧ t.volume = 100 + i % 26

/-- The members of a quote that the exclusive path writes for index `i`, as
exact values: 'a' + shift, 'A' + shift, 'Z' - shift, 201 + shift and
199 - shift with `shift = i mod 26` (the two differences are stated as sums). -/
def quote_varied (i : Nat) (q : nms_opra_quote_t) : Prop :=
  q.condition = 97 + i % 26 ∧ q.ask_exchange = 65 + i % 26 ∧
  q.bid_exchange + i % 26 = 90 ∧ q.ask_size = 201 + i % 26 ∧
  q.bid_size + i % 26 = 199

/-- Exclusive path: a committed message carries the record varied for its own
index. -/
def exclusive_varied_ok (be : Bool) (m : delivery) : Prop :=
  (m.index % 2 = 0 → ∃ t, trade_varied m.index t ∧ m.data = 116 :: trade_bytes be t) ∧
  (m.index % 2 = 1 → ∃ q, quote_varied m.index q ∧ m.data = 113 :: quote_bytes be q)

/-! ## Scenarios used to exercise the loops -/

/-- The flag is never cleared and every attempt is accepted (position 64); the
clock reads 1000, 1001, ... -/
def env_accept_all : Env :=
  { big_endian := false
    running := fun _ => true
    transport := fun _ => 64
    clock := fun n => 1000 + n }

/-- The flag is never cleared; the first two attempts are back-pressured and
every later one is accepted. -/
def env_back_pressure_twice : Env :=
  { big_endian := false
    running := fun _ => true
    transport := fun n => if n < 2 then AERON_PUBLICATION_BACK_PRESSURED else 64
    clock := fun n => 1000 + n }

/-- The first attempt is back-pressured and the flag, set on entry to the loop,
is found cleared at the next call of `is_running()`. -/
def env_cancel_during_retry : Env :=
  { big_endian := false
    running := fun n => decide (n < 1)
    transport := fun _ => AERON_PUBLICATION_BACK_PRESSURED
    clock := fun n => 1000 + n }

/-- The flag is never cleared; the first attempt returns `Closed` and every
later one is accepted. -/
def env_closed_once : Env :=
  { big_endian := false
    running := fun _ => true
    transport := fun n => if n < 1 then AERON_PUBLICATION_CLOSED else 64
    clock := fun n => 1000 + n }

/-- The flag is never cleared and every attempt is accepted; the clock is
stopped, so that records differ only by what the loop itself writes. -/
def env_frozen_clock : Env :=
  { big_endian := false
    running := fun _ => true
    transport := fun _ => 64
    clock := fun _ => 1000 }

/-- The flag is never cleared and every attempt returns `Error`. -/
def env_transport_error : Env :=
  { big_endian := false
    running := fun _ => true
    transport := fun _ => AERON_PUBLICATION_ERROR
    clock := fun n => 1000 + n }

/-- No signal arrives; the first poll dispatches one 31-byte message and returns
1, the second returns -1. -/
def sub_env_poll_error : sub_env :=
  { sigint := fun _ => false
    dispatched := fun n => if n = 0 then [List.replicate 31 0] else []
    fragments_read := fun n => if n = 0 then 1 else -1 }

/-- No signal arrives; every poll dispatches one 31-byte message and returns 1. -/
def sub_env_steady : sub_env :=
  { sigint := fun _ => false
    dispatched := fun _ => [List.replicate 31 0]
    fragments_read := fun _ => 1 }

/-- Nothing is received; a SIGINT is handled before the third pass. -/
def sub_env_sigint : sub_env :=
  { sigint := fun n => decide (n = 2)
    dispatched := fun _ => []
    fragments_read := fun _ => 0 }

/-! ## Properties -/

/-! ### Record layout -/

theorem le_bytes_length (w v : Nat) : (le_bytes w v).length = w := by
  induction w generalizing v with
  | zero => rfl
  | succ w ih => simp [le_bytes, ih]

theorem int_bytes_length (be : Bool) (w v : Nat) : (int_bytes be w v).length = w := by
  unfold int_bytes
  split <;> simp [le_bytes_length]

theorem array_bytes_length {n : Nat} (a : Fin n → Nat) : (array_bytes a).length = n := by
  simp [array_bytes]

theorem quote_bytes_length (be : Bool) (q : nms_opra_quote_t) :
    (quote_bytes be q).length = 39 := by
  simp [quote_bytes, int_bytes_length, array_bytes_length, sizeof_XC_HITIME,
    sizeof_XC_VOLUME, sizeof_xuint64, sizeof_xuint32, sizeof_xuint8]

theorem trade_bytes_length (be : Bool) (t : nms_opra_trade_t) :
    (trade_bytes be t).length = 30 := by
  simp [trade_bytes, int_bytes_length, array_bytes_length, sizeof_XC_HITIME,
    sizeof_XC_VOLUME, sizeof_xuint64, sizeof_xuint32, sizeof_xuint8]

theorem sizeof_quote_eq : sizeof_nms_opra_quote_t = 39 := by decide

theorem sizeof_trade_eq : sizeof_nms_opra_trade_t = 30 := by decide

theorem sizeof_option_eq : sizeof_option_t = 39 := by decide

theorem slice_skip (a r : List Nat) (off len : Nat) (h : a.length ≤ off) :
    slice (a ++ r) off len = slice r (off - a.length) len := by
  unfold slice
  rw [List.drop_append_eq_append_drop, List.drop_of_length_le h, List.nil_append]

theorem slice_here (x post : List Nat) (len : Nat) (h : x.length = len) :
    slice (x ++ post) 0 len = x := by
  unfold slice
  rw [List.drop_zero, ← h, List.take_left]

theorem slice_all (x : List Nat) (len : Nat) (h : x.length = len) :
    slice x 0 len = x := by
  unfold slice
  rw [List.drop_zero, ← h, List.take_length]

/-- C7. Record layout: the packed Quote record is 39 bytes and the packed Trade
record 30 bytes, each the sum of its member widths (no padding); every member
starts at the running sum of the preceding widths (Quote: 0, 5, 8, 16, 20, 24,
28, 32, 36, 37, 38; Trade: 0, 5, 8, 16, 20, 24, 28, 29); and the raw bytes of a
record are exactly that many bytes, with each member's bytes at its offset. -/
theorem record_layout :
    sizeof_nms_opra_quote_t = 39 ∧ sizeof_nms_opra_trade_t = 30 ∧
    sizeof_nms_opra_quote_t = (nms_opra_quote_t_members.map member.width).sum ∧
    sizeof_nms_opra_trade_t = (nms_opra_trade_t_members.map member.width).sum ∧
    packed_offsets 0 nms_opra_quote_t_members =
      [("symbol", 0), ("expiration", 5), ("timestamp", 8), ("strike_price", 16),
       ("bid_price", 20), ("ask_price", 24), ("bid_size", 28), ("ask_size", 32),
       ("bid_exchange", 36), ("ask_exchange", 37), ("condition", 38)] ∧
    packed_offsets 0 nms_opra_trade_t_members =
      [("symbol", 0), ("expiration", 5), ("timestamp", 8), ("strike_price", 16),
       ("premium_price", 20), ("volume", 24), ("exchange", 28), ("condition", 29)] ∧
    (∀ (be : Bool) (q : nms_opra_quote_t),
      (quote_bytes be q).length = 39 ∧
      slice (quote_bytes be q) 0 5 = array_bytes q.symbol ∧
      slice (quote_bytes be q) 5 3 = array_bytes q.expiration ∧
      slice (quote_bytes be q) 8 8 = int_bytes be 8 q.timestamp ∧
      slice (quote_bytes be q) 16 4 = int_bytes be 4 q.strike_price ∧
      slice (quote_bytes be q) 20 4 = int_bytes be 4 q.bid_price ∧
      slice (quote_bytes be q) 24 4 = int_bytes be 4 q.ask_price ∧
      slice (quote_bytes be q) 28 4 = int_bytes be 4 q.bid_size ∧
      slice (quote_bytes be q) 32 4 = int_bytes be 4 q.ask_size ∧
      slice (quote_bytes be q) 36 1 = [q.bid_exchange % 256] ∧
      slice (quote_bytes be q) 37 1 = [q.ask_exchange % 256] ∧
      slice (quote_bytes be q) 38 1 = [q.condition % 256]) ∧
    (∀ (be : Bool) (t : nms_opra_trade_t),
      (trade_bytes be t).length = 30 ∧
      slice (trade_bytes be t) 0 5 = array_bytes t.symbol ∧
      slice (trade_bytes be t) 5 3 = array_bytes t.expiration ∧
      slice (trade_bytes be t) 8 8 = int_bytes be 8 t.timestamp ∧
      slice (trade_bytes be t) 16 4 = int_bytes be 4 t.strike_price ∧
      slice (trade_bytes be t) 20 4 = int_bytes be 4 t.premium_price ∧
      slice (trade_bytes be t) 24 4 = int_bytes be 4 t.volume ∧
      slice (trade_bytes be t) 28 1 = [t.exchange % 256] ∧
      slice (trade_bytes be t) 29 1 = [t.condition % 256]) := by
  refine ⟨by decide, by decide, by decide, by decide, by decide, by decide, ?_, ?_⟩
  · intro be q
    refine ⟨quote_bytes_length be q, ?_⟩
    have h1 : ∀ v, int_bytes be 1 v = [v % 256] := by
      intro v; cases be <;> simp [int_bytes, le_bytes]
    simp only [quote_bytes, sizeof_XC_HITIME, sizeof_XC_VOLUME, sizeof_xuint64,
      sizeof_xuint32, sizeof_xuint8, List.append_assoc, h1]
    refine ⟨?_, ?_, ?_, ?_, ?_, ?_, ?_, ?_, ?_, ?_, ?_⟩ <;>
      simp [slice_skip, slice_here, slice_all, int_bytes_length, array_bytes_length] <;>
      rfl
  · intro be t
    refine ⟨trade_bytes_length be t, ?_⟩
    have h1 : ∀ v, int_bytes be 1 v = [v % 256] := by
      intro v; cases be <;> simp [int_bytes, le_bytes]
    simp only [trade_bytes, sizeof_XC_HITIME, sizeof_XC_VOLUME, sizeof_xuint64,
      sizeof_xuint32, sizeof_xuint8, List.append_assoc, h1]
    refine ⟨?_, ?_, ?_, ?_, ?_, ?_, ?_, ?_⟩ <;>
      simp [slice_skip, slice_here, slice_all, int_bytes_length, array_bytes_length] <;>
      rfl

/-! ### The subscriber's handler -/

theorem poll_handler_keeps_limit (s : sub_state) (buf : List Nat) (len : Nat) :
    (poll_handler s buf len).data.limit = s.data.limit := by
  simp only [poll_handler, sigint_handler]
  split_ifs <;> rfl

theorem poll_handler_messages_eq (s : sub_state) (buf : List Nat) (len : Nat) :
    (poll_handler s buf len).data.messages = (s.data.messages + 1) % UINT64_MOD := by
  simp only [poll_handler, sigint_handler]
  split_ifs <;> rfl

theorem poll_handler_running_eq (s : sub_state) (buf : List Nat) (len : Nat) :
    (poll_handler s buf len).running =
      (s.running && !decide (s.data.limit ≠ 0 ∧
        (s.data.messages + 1) % UINT64_MOD ≥ s.data.limit)) := by
  simp only [poll_handler, sigint_handler]
  split_ifs with h1 h2 h2 <;> simp_all <;> intro _ <;> by_cases h0 : s.data.limit = 0 <;>
    simp_all

theorem poll_messages_stopped (msgs : List (List Nat)) (s : sub_state)
    (h : s.running = false) : (poll_messages s msgs).running = false := by
  induction msgs generalizing s with
  | nil => simpa [poll_messages] using h
  | cons m ms ih =>
    have hstep : (poll_handler s m m.length).running = false := by
      rw [poll_handler_running_eq, h]; rfl
    simpa [poll_messages] using ih (poll_handler s m m.length) hstep

theorem poll_messages_unbounded (msgs : List (List Nat)) (s : sub_state)
    (h : s.data.limit = 0) : (poll_messages s msgs).running = s.running := by
  induction msgs generalizing s with
  | nil => rfl
  | cons m ms ih =>
    have hl : (poll_handler s m m.length).data.limit = 0 := by
      rw [poll_handler_keeps_limit, h]
    have hr : (poll_handler s m m.length).running = s.running := by
      rw [poll_handler_running_eq, h]; simp
    have := ih (poll_handler s m m.length) hl
    simpa [poll_messages, hr] using this

theorem poll_messages_bounded (msgs : List (List Nat)) (s : sub_state)
    (hrun : s.running = true) (hlt : s.data.messages < s.data.limit)
    (hL : s.data.limit < UINT64_MOD) :
    ((poll_messages s msgs).running = false ↔
      s.data.limit ≤ s.data.messages + msgs.length) := by
  induction msgs generalizing s with
  | nil =>
    simp only [poll_messages, List.foldl_nil, List.length_nil, Nat.add_zero, hrun]
    constructor
    · intro h; cases h
    · intro h; omega
  | cons m ms ih =>
    have hm : (poll_handler s m m.length).data.messages = s.data.messages + 1 := by
      rw [poll_handler_messages_eq]
      apply Nat.mod_eq_of_lt
      omega
    have hl := poll_handler_keeps_limit s m m.length
    have hr := poll_handler_running_eq s m m.length
    have hfold : poll_messages s (m :: ms) = poll_messages (poll_handler s m m.length) ms := rfl
    rw [hfold]
    by_cases hreach : s.data.limit ≤ s.data.messages + 1
    · have hstop : (poll_handler s m m.length).running = false := by
        rw [hr, ← poll_handler_messages_eq s m m.length, hm]
        have : s.data.limit ≠ 0 := by omega
        simp [this, hreach]
      rw [poll_messages_stopped ms _ hstop]
      simp only [List.length_cons, true_iff]
      omega
    · have hgo : (poll_handler s m m.length).running = true := by
        rw [hr, ← poll_handler_messages_eq s m m.length, hm, hrun]
        simp
        omega
      have := ih (poll_handler s m m.length) hgo (by rw [hm, hl]; omega) (by rw [hl]; exact hL)
      rw [this, hm, hl, List.length_cons]
      omega

/-- C8 (as stated, refuted). A delivered buffer whose first byte is the unknown
tag 'x' (120), and a buffer holding the tag 'q' (113) alone, are both counted as
received messages by `poll_handler`: nothing is decoded and nothing is dropped. -/
theorem poll_handler_counts_malformed :
    (poll_handler ⟨true, ⟨false, 0, 0⟩, []⟩ [120, 1, 2, 3] 4).data.messages = 1 ∧
    (poll_handler ⟨true, ⟨false, 0, 0⟩, []⟩ [113] 1).data.messages = 1 ∧
    (poll_messages ⟨true, ⟨false, 2, 0⟩, []⟩ [[120, 1, 2, 3], [113]]).running = false := by
  refine ⟨by decide, by decide, by decide⟩

/-- C8 (amended). The handler does not look at the delivered bytes: its effect is
the same for any two buffers, and every delivered message, whatever its first
byte and length, advances the received-message counter by one (modulo 2^64). -/
theorem poll_handler_ignores_buffer (s : sub_state) (buf1 buf2 : List Nat) (len : Nat) :
    poll_handler s buf1 len = poll_handler s buf2 len ∧
    (poll_handler s buf1 len).data.messages = (s.data.messages + 1) % UINT64_MOD :=
  ⟨rfl, poll_handler_messages_eq s buf1 len⟩

/-- C9. For every handler state and dispatched message, `poll_handler` leaves
`limit` unchanged and increases `messages` by one (a 64-bit increment, equal to
`messages + 1` below the top of the range); it clears `running` iff
`limit != 0` and the new counter value is at least `limit`. With `limit = 0`
no sequence of messages clears `running`; with `1 <= limit`, starting from
`messages = 0`, `running` is cleared after `n` messages iff `n >= limit`, that
is first on the `limit`-th message. -/
theorem poll_handler_limit (s : sub_state) (buf : List Nat) (len : Nat)
    (msgs : List (List Nat)) :
    (poll_handler s buf len).data.limit = s.data.limit ∧
    (poll_handler s buf len).data.messages = (s.data.messages + 1) % UINT64_MOD ∧
    (s.data.messages + 1 < UINT64_MOD →
      (poll_handler s buf len).data.messages = s.data.messages + 1) ∧
    (s.running = true →
      ((poll_handler s buf len).running = false ↔
        (s.data.limit ≠ 0 ∧ (poll_handler s buf len).data.messages ≥ s.data.limit))) ∧
    (s.data.limit = 0 → (poll_messages s msgs).running = s.running) ∧
    (s.running = true → s.data.messages = 0 → 1 ≤ s.data.limit →
      s.data.limit < UINT64_MOD →
      ((poll_messages s msgs).running = false ↔ s.data.limit ≤ msgs.length)) := by
  refine ⟨poll_handler_keeps_limit s buf len, poll_handler_messages_eq s buf len, ?_, ?_,
    poll_messages_unbounded msgs s, ?_⟩
  · intro h
    rw [poll_handler_messages_eq]
    exact Nat.mod_eq_of_lt h
  · intro hrun
    rw [poll_handler_running_eq, poll_handler_messages_eq, hrun]
    simp
  · intro hrun h0 h1 hL
    have := poll_messages_bounded msgs s hrun (by omega) hL
    rw [this, h0]
    omega

/-- C9, at a concrete state: limit 3, counter 0, three messages of 31, 40 and 31
bytes; the flag is cleared by the third message and not by the first two. -/
theorem poll_handler_limit_witness :
    ((poll_messages ⟨true, ⟨false, 3, 0⟩, []⟩
        [List.replicate 31 0, List.replicate 40 0, List.replicate 31 0]).running = false ↔
      3 ≤ 3) ∧
    ((poll_messages ⟨true, ⟨false, 3, 0⟩, []⟩
        [List.replicate 31 0, List.replicate 40 0]).running = false ↔ 3 ≤ 2) :=
  ⟨(poll_handler_limit ⟨true, ⟨false, 3, 0⟩, []⟩ [] 0
      [List.replicate 31 0, List.replicate 40 0, List.replicate 31 0]).2.2.2.2.2
      rfl rfl (by decide) (by decide),
   (poll_handler_limit ⟨true, ⟨false, 3, 0⟩, []⟩ [] 0
      [List.replicate 31 0, List.replicate 40 0]).2.2.2.2.2
      rfl rfl (by decide) (by decide)⟩

/-! ### The exclusive publish loop: single passes -/

theorem exclusive_iteration_retry (env : Env) (messages : Nat) (s : pub_state)
    (hc : messages = 0 ∨ s.i < messages) (hr : env.running s.n_running = true)
    (hneg : env.transport s.n_transport < 0)
    (hne : env.transport s.n_transport ≠ AERON_PUBLICATION_ERROR) :
    exclusive_iteration env messages s = loop_step.again
      { s with
        n_running := s.n_running + 1
        message_length :=
          if s.i % 2 = 0 then sizeof_nms_opra_trade_t + 1 else sizeof_nms_opra_quote_t + 1
        n_transport := s.n_transport + 1
        attempts := s.attempts ++ [⟨s.i, s.message_sent_count,
          if s.i % 2 = 0 then sizeof_nms_opra_trade_t + 1 else sizeof_nms_opra_quote_t + 1,
          [], env.transport s.n_transport⟩]
        back_pressure_count := (s.back_pressure_count + 1) % UINT64_MOD } := by
  simp [exclusive_iteration, hc, hr, hneg, hne]

theorem exclusive_iteration_error (env : Env) (messages : Nat) (s : pub_state)
    (hc : messages = 0 ∨ s.i < messages) (hr : env.running s.n_running = true)
    (he : env.transport s.n_transport = AERON_PUBLICATION_ERROR) :
    exclusive_iteration env messages s = loop_step.leave
      { s with
        n_running := s.n_running + 1
        message_length :=
          if s.i % 2 = 0 then sizeof_nms_opra_trade_t + 1 else sizeof_nms_opra_quote_t + 1
        n_transport := s.n_transport + 1
        attempts := s.attempts ++ [⟨s.i, s.message_sent_count,
          if s.i % 2 = 0 then sizeof_nms_opra_trade_t + 1 else sizeof_nms_opra_quote_t + 1,
          [], env.transport s.n_transport⟩] } := by
  simp [exclusive_iteration, hc, hr, he]

theorem exclusive_iteration_cancelled (env : Env) (messages : Nat) (s : pub_state)
    (hc : messages = 0 ∨ s.i < messages) (hr : env.running s.n_running = false) :
    exclusive_iteration env messages s =
      loop_step.leave { s with n_running := s.n_running + 1 } := by
  simp [exclusive_iteration, hc, hr]

theorem exclusive_iteration_finished (env : Env) (messages : Nat) (s : pub_state)
    (hc : ¬ (messages = 0 ∨ s.i < messages)) :
    exclusive_iteration env messages s = loop_step.leave s := by
  simp only [exclusive_iteration, hc, if_false]

theorem exclusive_iteration_accept (env : Env) (messages : Nat) (s : pub_state)
    (hc : messages = 0 ∨ s.i < messages) (hr : env.running s.n_running = true)
    (hok : 0 ≤ env.transport s.n_transport) :
    exclusive_iteration env messages s = loop_step.again
      { exclusive_fill env
          { s with
            n_running := s.n_running + 1
            message_length :=
              if s.i % 2 = 0 then sizeof_nms_opra_trade_t + 1 else sizeof_nms_opra_quote_t + 1
            n_transport := s.n_transport + 1
            attempts := s.attempts ++ [⟨s.i, s.message_sent_count,
              if s.i % 2 = 0 then sizeof_nms_opra_trade_t + 1 else sizeof_nms_opra_quote_t + 1,
              [], env.transport s.n_transport⟩] } with
        message_sent_count := (s.message_sent_count + 1) % UINT64_MOD
        i := (s.i + 1) % UINT64_MOD } := by
  have hne : env.transport s.n_transport ≠ AERON_PUBLICATION_ERROR := by
    intro h; rw [h] at hok; revert hok; decide
  have hnn : ¬ env.transport s.n_transport < 0 := by omega
  simp only [exclusive_iteration, hc, hr, hne, hnn, if_true, if_false]
  congr 1
  unfold exclusive_fill
  split <;> rfl

theorem exclusive_iteration_not_spent (env : Env) (messages : Nat) (s s1 : pub_state) :
    exclusive_iteration env messages s ≠ loop_step.spent s1 := by
  intro h
  simp only [exclusive_iteration] at h
  split_ifs at h

theorem exclusive_loop_of_leave (env : Env) (messages fuel : Nat) (s s1 : pub_state)
    (h : exclusive_iteration env messages s = loop_step.leave s1) :
    exclusive_loop env messages (fuel + 1) s = loop_step.leave s1 := by
  simp only [exclusive_loop, h]

theorem exclusive_loop_of_again (env : Env) (messages fuel : Nat) (s s1 : pub_state)
    (h : exclusive_iteration env messages s = loop_step.again s1) :
    exclusive_loop env messages (fuel + 1) s = exclusive_loop env messages fuel s1 := by
  simp only [exclusive_loop, h]

theorem offer_loop_of_leave (env : Env) (messages fuel : Nat) (s s1 : pub_state)
    (h : offer_iteration env messages fuel s = loop_step.leave s1) :
    offer_loop env messages (fuel + 1) s = loop_step.leave s1 := by
  simp only [offer_loop, h]

theorem offer_loop_of_again (env : Env) (messages fuel : Nat) (s s1 : pub_state)
    (h : offer_iteration env messages fuel s = loop_step.again s1) :
    offer_loop env messages (fuel + 1) s = offer_loop env messages fuel s1 := by
  simp only [offer_loop, h]

theorem exclusive_loop_add (env : Env) (messages : Nat) (a b : Nat) :
    ∀ s sa : pub_state, exclusive_loop env messages a s = loop_step.spent sa →
      exclusive_loop env messages (a + b) s = exclusive_loop env messages b sa := by
  induction a with
  | zero =>
    intro s sa h
    simp only [exclusive_loop] at h
    cases h
    simp
  | succ a ih =>
    intro s sa h
    rw [Nat.add_right_comm]
    simp only [exclusive_loop] at h ⊢
    cases hit : exclusive_iteration env messages s with
    | again s1 =>
      rw [hit] at h
      simp only at h ⊢
      exact ih s1 sa h
    | leave s1 => rw [hit] at h; cases h
    | spent s1 => exact absurd hit (exclusive_iteration_not_spent env messages s s1)

theorem exclusive_loop_retries (env : Env) (messages : Nat) (k : Nat) :
    ∀ s : pub_state, (messages = 0 ∨ s.i < messages) →
      s.back_pressure_count < UINT64_MOD →
      (∀ j, j < k → env.running (s.n_running + j) = true) →
      (∀ j, j < k → env.transport (s.n_transport + j) < 0 ∧
        env.transport (s.n_transport + j) ≠ AERON_PUBLICATION_ERROR) →
      ∃ sk, exclusive_loop env messages k s = loop_step.spent sk ∧
        sk.i = s.i ∧ sk.message_sent_count = s.message_sent_count ∧
        sk.back_pressure_count = (s.back_pressure_count + k) % UINT64_MOD ∧
        sk.delivered = s.delivered ∧
        sk.n_transport = s.n_transport + k ∧ sk.n_running = s.n_running + k ∧
        ∃ new, sk.attempts = s.attempts ++ new ∧ new.length = k ∧
          ∀ a ∈ new, a.index = s.i ∧ a.sent_count = s.message_sent_count ∧
            a.length = (if s.i % 2 = 0 then 31 else 40) ∧ a.result < 0 := by
  induction k with
  | zero =>
    intro s _ hb _ _
    exact ⟨s, rfl, rfl, rfl, (Nat.mod_eq_of_lt hb).symm, rfl, rfl, rfl, [], by simp, rfl,
      by simp⟩
  | succ k ih =>
    intro s hc hb hrun htr
    have h0 := htr 0 (Nat.succ_pos k)
    have hr0 := hrun 0 (Nat.succ_pos k)
    simp only [Nat.add_zero] at h0 hr0
    have hstep := exclusive_iteration_retry env messages s hc hr0 h0.1 h0.2
    obtain ⟨s1, hs1⟩ : ∃ s1 : pub_state, s1 =
        { s with
          n_running := s.n_running + 1
          message_length :=
            if s.i % 2 = 0 then sizeof_nms_opra_trade_t + 1 else sizeof_nms_opra_quote_t + 1
          n_transport := s.n_transport + 1
          attempts := s.attempts ++ [⟨s.i, s.message_sent_count,
            if s.i % 2 = 0 then sizeof_nms_opra_trade_t + 1 else sizeof_nms_opra_quote_t + 1,
            [], env.transport s.n_transport⟩]
          back_pressure_count := (s.back_pressure_count + 1) % UINT64_MOD } := ⟨_, rfl⟩
    rw [← hs1] at hstep
    have e1 : s1.i = s.i := by rw [hs1]
    have e2 : s1.message_sent_count = s.message_sent_count := by rw [hs1]
    have e3 : s1.back_pressure_count = (s.back_pressure_count + 1) % UINT64_MOD := by rw [hs1]
    have e4 : s1.delivered = s.delivered := by rw [hs1]
    have e5 : s1.n_transport = s.n_transport + 1 := by rw [hs1]
    have e6 : s1.n_running = s.n_running + 1 := by rw [hs1]
    have e7 : s1.attempts = s.attempts ++ [⟨s.i, s.message_sent_count,
        if s.i % 2 = 0 then sizeof_nms_opra_trade_t + 1 else sizeof_nms_opra_quote_t + 1,
        [], env.transport s.n_transport⟩] := by rw [hs1]
    obtain ⟨sk, hloop, hi, hsent, hbpc, hdel, hnt, hnr, new, hatt, hlen, hall⟩ :=
      ih s1 (by rw [e1]; exact hc)
        (by rw [e3]; exact Nat.mod_lt _ (by decide))
        (fun j hj => by
          have := hrun (j + 1) (by omega)
          rw [e6, Nat.add_assoc, Nat.add_comm 1 j]; exact this)
        (fun j hj => by
          have := htr (j + 1) (by omega)
          rw [e5, Nat.add_assoc, Nat.add_comm 1 j]; exact this)
    rw [e1] at hi hall
    rw [e2] at hsent hall
    rw [e3] at hbpc
    rw [e4] at hdel
    rw [e5] at hnt
    rw [e6] at hnr
    rw [e7] at hatt
    refine ⟨sk, ?_, hi, hsent, ?_, hdel, ?_, ?_,
      (⟨s.i, s.message_sent_count,
        if s.i % 2 = 0 then sizeof_nms_opra_trade_t + 1 else sizeof_nms_opra_quote_t + 1,
        [], env.transport s.n_transport⟩ : attempt) :: new, ?_, ?_, ?_⟩
    · simp only [exclusive_loop, hstep]
      exact hloop
    · rw [hbpc]
      simp only [UINT64_MOD]
      omega
    · rw [hnt]; omega
    · rw [hnr]; omega
    · rw [hatt, List.append_assoc]; rfl
    · simp [hlen]
    · intro a ha
      rcases List.mem_cons.mp ha with h | h
      · subst h
        refine ⟨rfl, rfl, ?_, h0.1⟩
        simp only [sizeof_quote_eq, sizeof_trade_eq]
      · exact hall a h

/-! ### The exclusive path: what is written into a claimed region -/

theorem store_tag_record (n tag : Nat) (rec : List Nat) (h : rec.length + 1 = n) :
    store_at (store_at (List.replicate n 0) 0 [tag]) 1 rec = tag :: rec := by
  subst h
  simp [store_at, List.replicate_succ]
  omega

theorem exclusive_fill_frame (env : Env) (s : pub_state) :
    (exclusive_fill env s).i = s.i ∧
    (exclusive_fill env s).message_sent_count = s.message_sent_count ∧
    (exclusive_fill env s).back_pressure_count = s.back_pressure_count ∧
    (exclusive_fill env s).attempts = s.attempts ∧
    (exclusive_fill env s).n_transport = s.n_transport ∧
    (exclusive_fill env s).n_running = s.n_running ∧
    (exclusive_fill env s).message_length = s.message_length := by
  unfold exclusive_fill
  split <;> exact ⟨rfl, rfl, rfl, rfl, rfl, rfl, rfl⟩

theorem exclusive_fill_delivered (env : Env) (s : pub_state)
    (hlen : s.message_length = if s.i % 2 = 0 then 31 else 40) :
    (exclusive_fill env s).delivered = s.delivered ++
      [⟨s.i, if s.i % 2 = 0
          then 116 :: trade_bytes env.big_endian (exclusive_fill env s).trade
          else 113 :: quote_bytes env.big_endian (exclusive_fill env s).quote⟩] := by
  unfold exclusive_fill
  by_cases hp : s.i % 2 = 0
  · simp only [hp, if_true] at hlen ⊢
    rw [hlen, store_tag_record 31 116 _ (by rw [trade_bytes_length])]
  · simp only [hp, if_false] at hlen ⊢
    rw [hlen, store_tag_record 40 113 _ (by rw [quote_bytes_length])]

theorem exclusive_loop_accept (env : Env) (messages : Nat) (s : pub_state)
    (hc : messages = 0 ∨ s.i < messages) (hr : env.running s.n_running = true)
    (hok : 0 ≤ env.transport s.n_transport) :
    ∃ s1, exclusive_iteration env messages s = loop_step.again s1 ∧
      s1.i = (s.i + 1) % UINT64_MOD ∧
      s1.message_sent_count = (s.message_sent_count + 1) % UINT64_MOD ∧
      s1.back_pressure_count = s.back_pressure_count ∧
      s1.n_transport = s.n_transport + 1 ∧ s1.n_running = s.n_running + 1 ∧
      s1.attempts = s.attempts ++
        [⟨s.i, s.message_sent_count, if s.i % 2 = 0 then 31 else 40, [],
          env.transport s.n_transport⟩] ∧
      s1.delivered = s.delivered ++
        [⟨s.i, if s.i % 2 = 0 then 116 :: trade_bytes env.big_endian s1.trade
               else 113 :: quote_bytes env.big_endian s1.quote⟩] := by
  refine ⟨_, exclusive_iteration_accept env messages s hc hr hok, rfl, rfl, ?_, ?_, ?_, ?_, ?_⟩
  · exact (exclusive_fill_frame env _).2.2.1
  · exact (exclusive_fill_frame env _).2.2.2.2.1
  · exact (exclusive_fill_frame env _).2.2.2.2.2.1
  · show (exclusive_fill env _).attempts = _
    rw [(exclusive_fill_frame env _).2.2.2.1]
    simp only [sizeof_quote_eq, sizeof_trade_eq]
  · show (exclusive_fill env _).delivered = _
    rw [exclusive_fill_delivered env _ (by simp only [sizeof_quote_eq, sizeof_trade_eq])]

/-! ### The shared path: the inner offer loop -/

theorem offer_retry_negative (env : Env) (fuel : Nat) (s : pub_state)
    (hneg : env.transport s.n_transport < 0) (hr : env.running s.n_running = true) :
    offer_retry env (fuel + 1) s = offer_retry env fuel
      { s with
        n_transport := s.n_transport + 1
        attempts := s.attempts ++ [⟨s.i, s.message_sent_count, s.message_length,
          slice s.message 0 s.message_length, env.transport s.n_transport⟩]
        back_pressure_count := (s.back_pressure_count + 1) % UINT64_MOD
        n_running := s.n_running + 1 } := by
  simp [offer_retry, hneg, hr]

theorem offer_retry_cancelled (env : Env) (fuel : Nat) (s : pub_state)
    (hneg : env.transport s.n_transport < 0) (hr : env.running s.n_running = false) :
    offer_retry env (fuel + 1) s = loop_step.leave
      { s with
        n_transport := s.n_transport + 1
        attempts := s.attempts ++ [⟨s.i, s.message_sent_count, s.message_length,
          slice s.message 0 s.message_length, env.transport s.n_transport⟩]
        back_pressure_count := (s.back_pressure_count + 1) % UINT64_MOD
        n_running := s.n_running + 1 } := by
  simp [offer_retry, hneg, hr]

theorem offer_retry_accepted (env : Env) (fuel : Nat) (s : pub_state)
    (hok : 0 ≤ env.transport s.n_transport) :
    offer_retry env (fuel + 1) s = loop_step.leave
      { s with
        n_transport := s.n_transport + 1
        attempts := s.attempts ++ [⟨s.i, s.message_sent_count, s.message_length,
          slice s.message 0 s.message_length, env.transport s.n_transport⟩]
        delivered := s.delivered ++ [⟨s.i, slice s.message 0 s.message_length⟩] } := by
  have hnn : ¬ env.transport s.n_transport < 0 := by omega
  simp [offer_retry, hnn]

theorem offer_retry_retries (env : Env) (k : Nat) :
    ∀ s : pub_state, s.back_pressure_count < UINT64_MOD →
      (∀ j, j < k → env.running (s.n_running + j) = true) →
      (∀ j, j < k → env.transport (s.n_transport + j) < 0) →
      ∃ sk, offer_retry env k s = loop_step.spent sk ∧
        (∀ fuel, offer_retry env (k + fuel) s = offer_retry env fuel sk) ∧
        sk.i = s.i ∧ sk.message_sent_count = s.message_sent_count ∧
        sk.back_pressure_count = (s.back_pressure_count + k) % UINT64_MOD ∧
        sk.delivered = s.delivered ∧
        sk.message = s.message ∧ sk.message_length = s.message_length ∧
        sk.n_transport = s.n_transport + k ∧ sk.n_running = s.n_running + k ∧
        ∃ new, sk.attempts = s.attempts ++ new ∧ new.length = k ∧
          ∀ a ∈ new, a.index = s.i ∧ a.sent_count = s.message_sent_count ∧
            a.length = s.message_length ∧
            a.data = slice s.message 0 s.message_length ∧ a.result < 0 := by
  induction k with
  | zero =>
    intro s hb _ _
    exact ⟨s, rfl, fun fuel => by rw [Nat.zero_add], rfl, rfl, (Nat.mod_eq_of_lt hb).symm,
      rfl, rfl, rfl, rfl, rfl, [], by simp, rfl, by simp⟩
  | succ k ih =>
    intro s hb hrun htr
    have h0 := htr 0 (Nat.succ_pos k)
    have hr0 := hrun 0 (Nat.succ_pos k)
    simp only [Nat.add_zero] at h0 hr0
    have hstep := fun fuel => offer_retry_negative env fuel s h0 hr0
    obtain ⟨s1, hs1⟩ : ∃ s1 : pub_state, s1 =
        { s with
          n_transport := s.n_transport + 1
          attempts := s.attempts ++ [⟨s.i, s.message_sent_count, s.message_length,
            slice s.message 0 s.message_length, env.transport s.n_transport⟩]
          back_pressure_count := (s.back_pressure_count + 1) % UINT64_MOD
          n_running := s.n_running + 1 } := ⟨_, rfl⟩
    rw [← hs1] at hstep
    have e1 : s1.i = s.i := by rw [hs1]
    have e2 : s1.message_sent_count = s.message_sent_count := by rw [hs1]
    have e3 : s1.back_pressure_count = (s.back_pressure_count + 1) % UINT64_MOD := by rw [hs1]
    have e4 : s1.delivered = s.delivered := by rw [hs1]
    have e5 : s1.n_transport = s.n_transport + 1 := by rw [hs1]
    have e6 : s1.n_running = s.n_running + 1 := by rw [hs1]
    have e7 : s1.attempts = s.attempts ++ [⟨s.i, s.message_sent_count, s.message_length,
        slice s.message 0 s.message_length, env.transport s.n_transport⟩] := by rw [hs1]
    have e8 : s1.message = s.message := by rw [hs1]
    have e9 : s1.message_length = s.message_length := by rw [hs1]
    obtain ⟨sk, hloop, hadd, hi, hsent, hbpc, hdel, hmsg, hml, hnt, hnr, new, hatt, hlen,
        hall⟩ :=
      ih s1 (by rw [e3]; exact Nat.mod_lt _ (by decide))
        (fun j hj => by
          have := hrun (j + 1) (by omega)
          rw [e6, Nat.add_assoc, Nat.add_comm 1 j]; exact this)
        (fun j hj => by
          have := htr (j + 1) (by omega)
          rw [e5, Nat.add_assoc, Nat.add_comm 1 j]; exact this)
    rw [e1] at hi hall
    rw [e2] at hsent hall
    rw [e3] at hbpc
    rw [e4] at hdel
    rw [e5] at hnt
    rw [e6] at hnr
    rw [e7] at hatt
    rw [e8] at hmsg hall
    rw [e9] at hml hall
    refine ⟨sk, ?_, ?_, hi, hsent, ?_, hdel, hmsg, hml, ?_, ?_,
      (⟨s.i, s.message_sent_count, s.message_length,
        slice s.message 0 s.message_length, env.transport s.n_transport⟩ : attempt) :: new,
      ?_, ?_, ?_⟩
    · rw [hstep]; exact hloop
    · intro fuel
      rw [Nat.add_right_comm, hstep]
      exact hadd fuel
    · rw [hbpc]
      simp only [UINT64_MOD]
      omega
    · rw [hnt]; omega
    · rw [hnr]; omega
    · rw [hatt, List.append_assoc]; rfl
    · simp [hlen]
    · intro a ha
      rcases List.mem_cons.mp ha with h | h
      · subst h
        exact ⟨rfl, rfl, rfl, rfl, h0⟩
      · exact hall a h

/-! ### The shared path: building the message and one pass of the loop -/

theorem slice_store_zero (buf src : List Nat) :
    slice (store_at buf 0 src) 0 src.length = src := by
  simp [store_at, slice]

theorem offer_build_frame (env : Env) (s : pub_state) :
    (offer_build env s).i = s.i ∧
    (offer_build env s).message_sent_count = s.message_sent_count ∧
    (offer_build env s).back_pressure_count = s.back_pressure_count ∧
    (offer_build env s).attempts = s.attempts ∧
    (offer_build env s).delivered = s.delivered ∧
    (offer_build env s).n_transport = s.n_transport ∧
    (offer_build env s).n_running = s.n_running := by
  unfold offer_build
  split <;> exact ⟨rfl, rfl, rfl, rfl, rfl, rfl, rfl⟩

theorem offer_build_message (env : Env) (s : pub_state) :
    (offer_build env s).message_length = (if s.i % 2 = 0 then 30 else 39) ∧
    slice (offer_build env s).message 0 (offer_build env s).message_length =
      (if s.i % 2 = 0 then trade_bytes env.big_endian (offer_build env s).trade
       else quote_bytes env.big_endian (offer_build env s).quote) := by
  unfold offer_build
  by_cases hp : s.i % 2 = 0
  · simp only [hp, if_true, sizeof_trade_eq, true_and]
    rw [← trade_bytes_length env.big_endian, slice_store_zero]
  · simp only [hp, if_false, sizeof_quote_eq, true_and]
    rw [← quote_bytes_length env.big_endian, slice_store_zero]

theorem offer_iteration_cancelled (env : Env) (messages fuel : Nat) (s : pub_state)
    (hc : messages = 0 ∨ s.i < messages) (hr : env.running s.n_running = false) :
    offer_iteration env messages fuel s =
      loop_step.leave { s with n_running := s.n_running + 1 } := by
  simp [offer_iteration, hc, hr]

theorem offer_iteration_finished (env : Env) (messages fuel : Nat) (s : pub_state)
    (hc : ¬ (messages = 0 ∨ s.i < messages)) :
    offer_iteration env messages fuel s = loop_step.leave s := by
  simp only [offer_iteration, hc, if_false]

theorem offer_iteration_enter (env : Env) (messages fuel : Nat) (s : pub_state)
    (hc : messages = 0 ∨ s.i < messages) (hr : env.running s.n_running = true) :
    offer_iteration env messages fuel s =
      match offer_retry env fuel
          (offer_build env { s with n_running := s.n_running + 1 }) with
      | loop_step.spent s2 => loop_step.spent s2
      | loop_step.again s2 => loop_step.spent s2
      | loop_step.leave s2 =>
        loop_step.again
          { s2 with
            message_sent_count := (s2.message_sent_count + 1) % UINT64_MOD
            i := (s2.i + 1) % UINT64_MOD } := by
  simp only [offer_iteration, hc, hr, if_true]

theorem offer_iteration_retries (env : Env) (messages k : Nat) (s : pub_state)
    (hc : messages = 0 ∨ s.i < messages) (hb : s.back_pressure_count < UINT64_MOD)
    (hrun : ∀ j, j < k + 1 → env.running (s.n_running + j) = true)
    (hbp : ∀ j, j < k → env.transport (s.n_transport + j) < 0) :
    ∃ sk, offer_iteration env messages k s = loop_step.spent sk ∧
      (∀ fuel, offer_iteration env messages (k + fuel) s =
        match offer_retry env fuel sk with
        | loop_step.spent s2 => loop_step.spent s2
        | loop_step.again s2 => loop_step.spent s2
        | loop_step.leave s2 =>
          loop_step.again
            { s2 with
              message_sent_count := (s2.message_sent_count + 1) % UINT64_MOD
              i := (s2.i + 1) % UINT64_MOD }) ∧
      sk.i = s.i ∧ sk.message_sent_count = s.message_sent_count ∧
      sk.back_pressure_count = (s.back_pressure_count + k) % UINT64_MOD ∧
      sk.delivered = s.delivered ∧
      sk.message_length = (if s.i % 2 = 0 then 30 else 39) ∧
      sk.n_transport = s.n_transport + k ∧ sk.n_running = s.n_running + 1 + k ∧
      ∃ new, sk.attempts = s.attempts ++ new ∧ new.length = k ∧
        ∀ a ∈ new, a.index = s.i ∧ a.sent_count = s.message_sent_count ∧
          a.length = sk.message_length ∧
          a.data = slice sk.message 0 sk.message_length ∧ a.result < 0 := by
  have hr0 := hrun 0 (Nat.succ_pos k)
  simp only [Nat.add_zero] at hr0
  obtain ⟨b, hbdef⟩ : ∃ b : pub_state,
      b = offer_build env { s with n_running := s.n_running + 1 } := ⟨_, rfl⟩
  have henter := fun fuel => offer_iteration_enter env messages fuel s hc hr0
  rw [← hbdef] at henter
  obtain ⟨f1, f2, f3, f4, f5, f6, f7⟩ :=
    offer_build_frame env { s with n_running := s.n_running + 1 }
  obtain ⟨m1, -⟩ := offer_build_message env { s with n_running := s.n_running + 1 }
  rw [← hbdef] at f1 f2 f3 f4 f5 f6 f7 m1
  simp only [] at f1 f2 f3 f4 f5 f6 f7 m1
  obtain ⟨sk, hloop, hadd, hi, hsent, hbpc, hdel, hmsg, hml, hnt, hnr, new, hatt, hlen,
      hall⟩ :=
    offer_retry_retries env k b (by rw [f3]; exact hb)
      (fun j hj => by
        have := hrun (j + 1) (by omega)
        rw [f7, Nat.add_assoc, Nat.add_comm 1 j]; exact this)
      (fun j hj => by rw [f6]; exact hbp j hj)
  refine ⟨sk, ?_, ?_, by rw [hi, f1], by rw [hsent, f2], by rw [hbpc, f3], by rw [hdel, f5],
    by rw [hml, m1], by rw [hnt, f6], by rw [hnr, f7], new, by rw [hatt, f4], hlen, ?_⟩
  · rw [henter, hloop]
  · intro fuel
    rw [henter, hadd]
  · intro a ha
    obtain ⟨a1, a2, a3, a4, a5⟩ := hall a ha
    exact ⟨by rw [a1, f1], by rw [a2, f2], by rw [a3, hml], by rw [a4, hml, hmsg], a5⟩

/-! ### Back-pressure retry -/

/-- C1. Back-pressure retry, for both publish loops. From any state at the loop
condition with a message left to send (64-bit counter in range), if the flag is
never cleared and the transport answers back-pressure exactly `k` times and
then accepts, then: before the accepting attempt (after `j <= k` refused
attempts) `i` and `message_sent_count` are unchanged, nothing has been
delivered and `back_pressure_count` has grown by `j`; after it, exactly one
message, for index `i`, has been delivered, `k + 1` attempts were made, all for
index `i` with the old `message_sent_count`, `back_pressure_count` has grown by
exactly `k`, and `i` and `message_sent_count` have grown by one. -/
theorem back_pressure_retry (env : Env) (messages k : Nat) (s : pub_state)
    (hc : messages = 0 ∨ s.i < messages)
    (hb : s.back_pressure_count < UINT64_MOD)
    (hrun : ∀ n, env.running n = true)
    (hbp : ∀ j, j < k →
      env.transport (s.n_transport + j) = AERON_PUBLICATION_BACK_PRESSURED)
    (hok : 0 ≤ env.transport (s.n_transport + k)) :
    (∀ j, j ≤ k → ∃ sj, exclusive_loop env messages j s = loop_step.spent sj ∧
      sj.i = s.i ∧ sj.message_sent_count = s.message_sent_count ∧
      sj.delivered = s.delivered ∧
      sj.back_pressure_count = (s.back_pressure_count + j) % UINT64_MOD) ∧
    (∃ s1, exclusive_loop env messages (k + 1) s = loop_step.spent s1 ∧
      s1.i = (s.i + 1) % UINT64_MOD ∧
      s1.message_sent_count = (s.message_sent_count + 1) % UINT64_MOD ∧
      s1.back_pressure_count = (s.back_pressure_count + k) % UINT64_MOD ∧
      (s.back_pressure_count + k < UINT64_MOD →
        s1.back_pressure_count = s.back_pressure_count + k) ∧
      (∃ d, s1.delivered = s.delivered ++ [d] ∧ d.index = s.i) ∧
      ∃ new, s1.attempts = s.attempts ++ new ∧ new.length = k + 1 ∧
        ∀ a ∈ new, a.index = s.i ∧ a.sent_count = s.message_sent_count) ∧
    (∀ j, j ≤ k → ∃ sj, offer_iteration env messages j s = loop_step.spent sj ∧
      sj.i = s.i ∧ sj.message_sent_count = s.message_sent_count ∧
      sj.delivered = s.delivered ∧
      sj.back_pressure_count = (s.back_pressure_count + j) % UINT64_MOD) ∧
    (∃ s1, (∀ fuel, k + 1 ≤ fuel →
        offer_iteration env messages fuel s = loop_step.again s1) ∧
      s1.i = (s.i + 1) % UINT64_MOD ∧
      s1.message_sent_count = (s.message_sent_count + 1) % UINT64_MOD ∧
      s1.back_pressure_count = (s.back_pressure_count + k) % UINT64_MOD ∧
      (s.back_pressure_count + k < UINT64_MOD →
        s1.back_pressure_count = s.back_pressure_count + k) ∧
      ∃ d, s1.delivered = s.delivered ++ [d] ∧ d.index = s.i ∧
        ∃ new, s1.attempts = s.attempts ++ new ∧ new.length = k + 1 ∧
          ∀ a ∈ new, a.index = s.i ∧ a.sent_count = s.message_sent_count ∧
            a.data = d.data) := by
  have hneg : ∀ j, j < k → env.transport (s.n_transport + j) < 0 ∧
      env.transport (s.n_transport + j) ≠ AERON_PUBLICATION_ERROR := by
    intro j hj
    rw [hbp j hj]
    decide
  refine ⟨?_, ?_, ?_, ?_⟩
  · intro j hj
    obtain ⟨sj, h1, h2, h3, h4, h5, -⟩ :=
      exclusive_loop_retries env messages j s hc hb (fun n _ => hrun _)
        (fun n hn => hneg n (by omega))
    exact ⟨sj, h1, h2, h3, h5, h4⟩
  · obtain ⟨sk, h1, h2, h3, h4, h5, h6, h7, new, h8, h9, h10⟩ :=
      exclusive_loop_retries env messages k s hc hb (fun n _ => hrun _) hneg
    obtain ⟨s1, g1, g2, g3, g4, g5, g6, g7, g8⟩ :=
      exclusive_loop_accept env messages sk (by rw [h2]; exact hc) (hrun _)
        (by rw [h6]; exact hok)
    refine ⟨s1, ?_, by rw [g2, h2], by rw [g3, h3], by rw [g4, h4], ?_,
      ⟨⟨sk.i, if sk.i % 2 = 0 then 116 :: trade_bytes env.big_endian s1.trade
               else 113 :: quote_bytes env.big_endian s1.quote⟩, ?_, h2⟩,
      new ++ [⟨sk.i, sk.message_sent_count, if sk.i % 2 = 0 then 31 else 40, [],
        env.transport sk.n_transport⟩], ?_, ?_, ?_⟩
    · rw [exclusive_loop_add env messages k 1 s sk h1]
      simp only [exclusive_loop, g1]
    · intro hroom
      rw [g4, h4]
      exact Nat.mod_eq_of_lt hroom
    · rw [g8, h5]
    · rw [g7, h8, List.append_assoc]
    · simp [h9]
    · intro a ha
      rcases List.mem_append.mp ha with h | h
      · exact ⟨(h10 a h).1, (h10 a h).2.1⟩
      · rw [List.mem_singleton] at h
        subst h
        exact ⟨h2, h3⟩
  · intro j hj
    obtain ⟨sj, h1, -, h2, h3, h4, h5, -⟩ :=
      offer_iteration_retries env messages j s hc hb (fun n _ => hrun _)
        (fun n hn => (hneg n (by omega)).1)
    exact ⟨sj, h1, h2, h3, h5, h4⟩
  · obtain ⟨sk, -, hadd, h2, h3, h4, h5, h6, h7, h8, new, h9, h10, h11⟩ :=
      offer_iteration_retries env messages k s hc hb (fun n _ => hrun _)
        (fun n hn => (hneg n hn).1)
    have hacc := fun fuel => offer_retry_accepted env fuel sk (by rw [h7]; exact hok)
    obtain ⟨s2, hs2⟩ : ∃ s2 : pub_state, s2 =
        { sk with
          n_transport := sk.n_transport + 1
          attempts := sk.attempts ++ [⟨sk.i, sk.message_sent_count, sk.message_length,
            slice sk.message 0 sk.message_length, env.transport sk.n_transport⟩]
          delivered := sk.delivered ++ [⟨sk.i, slice sk.message 0 sk.message_length⟩] } :=
      ⟨_, rfl⟩
    rw [← hs2] at hacc
    refine ⟨{ s2 with
        message_sent_count := (s2.message_sent_count + 1) % UINT64_MOD
        i := (s2.i + 1) % UINT64_MOD }, ?_, ?_, ?_, ?_, ?_,
      ⟨sk.i, slice sk.message 0 sk.message_length⟩, ?_, ?_,
      new ++ [⟨sk.i, sk.message_sent_count, sk.message_length,
        slice sk.message 0 sk.message_length, env.transport sk.n_transport⟩], ?_, ?_, ?_⟩
    · intro fuel hfuel
      obtain ⟨f, rfl⟩ : ∃ f, fuel = k + (f + 1) := ⟨fuel - (k + 1), by omega⟩
      rw [hadd (f + 1), hacc f]
    · show (s2.i + 1) % UINT64_MOD = _
      rw [hs2, h2]
    · show (s2.message_sent_count + 1) % UINT64_MOD = _
      rw [hs2, h3]
    · show s2.back_pressure_count = _
      rw [hs2]
      exact h4
    · intro hroom
      show s2.back_pressure_count = _
      rw [hs2]
      show sk.back_pressure_count = _
      rw [h4]
      exact Nat.mod_eq_of_lt hroom
    · show s2.delivered = _
      rw [hs2]
      show sk.delivered ++ _ = _
      rw [h5]
    · exact h2
    · show s2.attempts = _
      rw [hs2]
      show sk.attempts ++ _ = _
      rw [h9, List.append_assoc]
    · simp [h10]
    · intro a ha
      rcases List.mem_append.mp ha with h | h
      · exact ⟨(h11 a h).1, (h11 a h).2.1, (h11 a h).2.2.2.1⟩
      · rw [List.mem_singleton] at h
        subst h
        exact ⟨h2, h3, rfl⟩

/-- C1, at a concrete run: four messages to send, the first two attempts
back-pressured. After three passes of the exclusive loop, and after one pass of
the shared loop, one message (index 0) is delivered, three attempts were made
and `back_pressure_count` is 2. -/
theorem back_pressure_retry_witness :
    (∃ s1, exclusive_loop env_back_pressure_twice 4 3 pub_init = loop_step.spent s1 ∧
      s1.i = 1 ∧ s1.message_sent_count = 1 ∧ s1.back_pressure_count = 2 ∧
      s1.delivered.length = 1 ∧ s1.attempts.length = 3) ∧
    (∃ s1, offer_iteration env_back_pressure_twice 4 3 pub_init = loop_step.again s1 ∧
      s1.i = 1 ∧ s1.message_sent_count = 1 ∧ s1.back_pressure_count = 2 ∧
      s1.delivered.length = 1 ∧ s1.attempts.length = 3) := by
  have h := back_pressure_retry env_back_pressure_twice 4 2 pub_init (by decide) (by decide)
    (fun _ => rfl) (by intro j hj; simp [env_back_pressure_twice, pub_init, hj]) (by decide)
  obtain ⟨-, ⟨s1, a1, a2, a3, a4, -, ⟨d, a5, -⟩, new, a6, a7, -⟩, -,
    ⟨s2, b1, b2, b3, b4, -, d2, b5, -, new2, b6, b7, -⟩⟩ := h
  refine ⟨⟨s1, a1, a2, a3, a4, ?_, ?_⟩, ⟨s2, b1 3 (by decide), b2, b3, b4, ?_, ?_⟩⟩
  · rw [a5]; rfl
  · rw [a6, List.length_append, a7]; rfl
  · rw [b5]; rfl
  · rw [b6, List.length_append, b7]; rfl

/-! ### Cancellation during back-pressure -/

theorem exclusive_cancel_during_retry (env : Env) (messages fuel : Nat) (s : pub_state)
    (hc : messages = 0 ∨ s.i < messages) (hr : env.running s.n_running = true)
    (hneg : env.transport s.n_transport < 0)
    (hne : env.transport s.n_transport ≠ AERON_PUBLICATION_ERROR)
    (hflag : env.running (s.n_running + 1) = false) :
    ∃ s1, exclusive_loop env messages (fuel + 2) s = loop_step.leave s1 ∧
      s1.i = s.i ∧ s1.message_sent_count = s.message_sent_count ∧
      s1.delivered = s.delivered ∧ s1.attempts.length = s.attempts.length + 1 := by
  have h1 := exclusive_iteration_retry env messages s hc hr hneg hne
  obtain ⟨s1, hs1⟩ : ∃ s1 : pub_state, s1 =
      { s with
        n_running := s.n_running + 1
        message_length :=
          if s.i % 2 = 0 then sizeof_nms_opra_trade_t + 1 else sizeof_nms_opra_quote_t + 1
        n_transport := s.n_transport + 1
        attempts := s.attempts ++ [⟨s.i, s.message_sent_count,
          if s.i % 2 = 0 then sizeof_nms_opra_trade_t + 1 else sizeof_nms_opra_quote_t + 1,
          [], env.transport s.n_transport⟩]
        back_pressure_count := (s.back_pressure_count + 1) % UINT64_MOD } := ⟨_, rfl⟩
  rw [← hs1] at h1
  have h2 := exclusive_iteration_cancelled env messages s1 (by rw [hs1]; exact hc)
    (by rw [hs1]; exact hflag)
  refine ⟨{ s1 with n_running := s1.n_running + 1 }, ?_, ?_, ?_, ?_, ?_⟩
  · simp only [exclusive_loop, h1, h2]
  · rw [hs1]
  · rw [hs1]
  · rw [hs1]
  · rw [hs1]; simp

/-- C3, the shared loop at the failing input: four messages to send, the first
offer is back-pressured and the flag is found cleared by the `is_running()`
call that follows it. The loop is left after that single offer with nothing
delivered, yet `i` and `message_sent_count` are both 1, not 0. On the same
input the exclusive loop is left with both still 0. -/
theorem offer_cancel_counts_unsent :
    ((offer_loop env_cancel_during_retry 4 2 pub_init).left = true ∧
      (offer_loop env_cancel_during_retry 4 2 pub_init).state.attempts.length = 1 ∧
      (offer_loop env_cancel_during_retry 4 2 pub_init).state.delivered.length = 0 ∧
      (offer_loop env_cancel_during_retry 4 2 pub_init).state.i = 1 ∧
      (offer_loop env_cancel_during_retry 4 2 pub_init).state.message_sent_count = 1) ∧
    ((exclusive_loop env_cancel_during_retry 4 2 pub_init).left = true ∧
      (exclusive_loop env_cancel_during_retry 4 2 pub_init).state.attempts.length = 1 ∧
      (exclusive_loop env_cancel_during_retry 4 2 pub_init).state.delivered.length = 0 ∧
      (exclusive_loop env_cancel_during_retry 4 2 pub_init).state.i = 0 ∧
      (exclusive_loop env_cancel_during_retry 4 2 pub_init).state.message_sent_count = 0) := by
  decide

/-! ### Framing -/

/-- C4, the shared loop at the failing input: two messages, every offer
accepted. The bytes passed to `offer` are the raw records alone: lengths 30 and
39, first byte 65 (the 'A' of the symbol) and no tag. On the same input the
exclusive loop claims 31 and 40 bytes and commits messages that start with the
tags 116 ('t') and 113 ('q'). -/
theorem offer_sends_untagged_record :
    (offer_loop env_accept_all 2 3 pub_init).left = true ∧
    (offer_loop env_accept_all 2 3 pub_init).state.attempts.map
        (fun a => (a.index, a.length, a.data.length, a.data.head?)) =
      [(0, 30, 30, some 65), (1, 39, 39, some 65)] ∧
    (offer_loop env_accept_all 2 3 pub_init).state.attempts.map (fun a => a.data) =
      [trade_bytes false { trade_template with timestamp := 1000 },
       quote_bytes false { quote_template with timestamp := 1001 }] ∧
    (exclusive_loop env_accept_all 2 3 pub_init).state.attempts.map
        (fun a => (a.index, a.length)) = [(0, 31), (1, 40)] ∧
    (exclusive_loop env_accept_all 2 3 pub_init).state.delivered.map
        (fun d => (d.index, d.data.length, d.data.head?)) =
      [(0, 31, some 116), (1, 40, some 113)] := by
  decide

/-! ### Per-message variation -/

/-- C10, the shared loop at the failing input: three messages, every offer
accepted, clock stopped. The records sent for indices 0 and 2 (both trades,
residues 0 and 2 modulo 26) are the same bytes, with volume 111, exchange 65
and condition 97 as in the template. On the same input the exclusive loop
sends volume 100, exchange 65, condition 97 for index 0 and volume 102,
exchange 67, condition 99 for index 2. -/
theorem offer_sends_unvaried_record :
    (offer_loop env_frozen_clock 3 4 pub_init).left = true ∧
    (offer_loop env_frozen_clock 3 4 pub_init).state.delivered.map (fun d => d.index) =
      [0, 1, 2] ∧
    ((offer_loop env_frozen_clock 3 4 pub_init).state.delivered.map (fun d => d.data))[0]? =
      ((offer_loop env_frozen_clock 3 4 pub_init).state.delivered.map (fun d => d.data))[2]? ∧
    ((offer_loop env_frozen_clock 3 4 pub_init).state.delivered.filter
        (fun d => d.index % 2 == 0)).map
        (fun d => (d.index, slice d.data 24 4, slice d.data 28 1, slice d.data 29 1)) =
      [(0, [111, 0, 0, 0], [65], [97]), (2, [111, 0, 0, 0], [65], [97])] ∧
    ((exclusive_loop env_frozen_clock 3 4 pub_init).state.delivered.filter
        (fun d => d.index % 2 == 0)).map
        (fun d => (d.index, slice d.data 25 4, slice d.data 29 1, slice d.data 30 1)) =
      [(0, [100, 0, 0, 0], [65], [97]), (2, [102, 0, 0, 0], [67], [99])] := by
  decide

/-! ### Fatal transport results -/

/-- C5 (as stated, refuted). One message to send; the first attempt returns
`Closed`, later ones are accepted. Neither loop stops at `Closed`: both count
it in `back_pressure_count`, make a second attempt for the same index and
deliver the message. -/
theorem closed_is_retried :
    ((exclusive_loop env_closed_once 1 3 pub_init).left = true ∧
      (exclusive_loop env_closed_once 1 3 pub_init).state.attempts.map
          (fun a => (a.index, a.result)) = [(0, AERON_PUBLICATION_CLOSED), (0, 64)] ∧
      (exclusive_loop env_closed_once 1 3 pub_init).state.back_pressure_count = 1 ∧
      (exclusive_loop env_closed_once 1 3 pub_init).state.delivered.length = 1) ∧
    ((offer_loop env_closed_once 1 3 pub_init).left = true ∧
      (offer_loop env_closed_once 1 3 pub_init).state.attempts.map
          (fun a => (a.index, a.result)) = [(0, AERON_PUBLICATION_CLOSED), (0, 64)] ∧
      (offer_loop env_closed_once 1 3 pub_init).state.back_pressure_count = 1 ∧
      (offer_loop env_closed_once 1 3 pub_init).state.delivered.length = 1) := by
  decide

/-- C5 (amended). In the exclusive loop, a `try_claim` result equal to
`AERON_PUBLICATION_ERROR` ends the loop at once: that attempt is the last one,
`back_pressure_count`, `i` and `message_sent_count` are unchanged and nothing
is delivered. Every other negative result (`Closed` included) increments
`back_pressure_count` and sends control back to the loop condition with the same
`i`. In the inner loop of the shared path, every negative result other than
`Error` (`Closed` included) increments `back_pressure_count` and, the flag still
being set, the offer is made again for the same `i` with the same bytes. -/
theorem fatal_results (env : Env) (messages fuel : Nat) (s : pub_state)
    (hr : env.running s.n_running = true) :
    (messages = 0 ∨ s.i < messages →
      env.transport s.n_transport = AERON_PUBLICATION_ERROR →
      ∃ s1, exclusive_loop env messages (fuel + 1) s = loop_step.leave s1 ∧
        s1.back_pressure_count = s.back_pressure_count ∧ s1.i = s.i ∧
        s1.message_sent_count = s.message_sent_count ∧ s1.delivered = s.delivered ∧
        s1.attempts = s.attempts ++ [⟨s.i, s.message_sent_count,
          if s.i % 2 = 0 then 31 else 40, [], AERON_PUBLICATION_ERROR⟩]) ∧
    (messages = 0 ∨ s.i < messages →
      env.transport s.n_transport < 0 →
      env.transport s.n_transport ≠ AERON_PUBLICATION_ERROR →
      ∃ s1, exclusive_iteration env messages s = loop_step.again s1 ∧
        s1.back_pressure_count = (s.back_pressure_count + 1) % UINT64_MOD ∧ s1.i = s.i ∧
        s1.message_sent_count = s.message_sent_count ∧ s1.delivered = s.delivered ∧
        s1.n_transport = s.n_transport + 1) ∧
    (env.transport s.n_transport < 0 →
      env.transport s.n_transport ≠ AERON_PUBLICATION_ERROR →
      ∃ s1, offer_retry env (fuel + 1) s = offer_retry env fuel s1 ∧
        s1.back_pressure_count = (s.back_pressure_count + 1) % UINT64_MOD ∧ s1.i = s.i ∧
        s1.message_sent_count = s.message_sent_count ∧ s1.delivered = s.delivered ∧
        s1.message = s.message ∧ s1.message_length = s.message_length ∧
        s1.n_transport = s.n_transport + 1) := by
  refine ⟨?_, ?_, ?_⟩
  · intro hc he
    have h := exclusive_iteration_error env messages s hc hr he
    refine ⟨_, exclusive_loop_of_leave env messages fuel s _ h, rfl, rfl, rfl, rfl, ?_⟩
    simp only [sizeof_quote_eq, sizeof_trade_eq, he]
  · intro hc hneg hne
    exact ⟨_, exclusive_iteration_retry env messages s hc hr hneg hne, rfl, rfl, rfl, rfl, rfl⟩
  · intro hneg _
    exact ⟨_, offer_retry_negative env fuel s hneg hr, rfl, rfl, rfl, rfl, rfl, rfl, rfl⟩

/-- C5 (amended), at a concrete state: from the initial state with one message
to send and `Closed` as the first result, the exclusive pass goes back to the
loop condition with `back_pressure_count = 1` and `i = 0`. -/
theorem fatal_results_witness :
    ∃ s1, exclusive_iteration env_closed_once 1 pub_init = loop_step.again s1 ∧
      s1.back_pressure_count = (pub_init.back_pressure_count + 1) % UINT64_MOD ∧
      s1.i = pub_init.i ∧
      s1.message_sent_count = pub_init.message_sent_count ∧
      s1.delivered = pub_init.delivered ∧
      s1.n_transport = pub_init.n_transport + 1 :=
  (fatal_results env_closed_once 1 0 pub_init rfl).2.1 (by decide) (by decide) (by decide)

/-! ### Runs without back-pressure -/

theorem offer_iteration_accept (env : Env) (messages : Nat) (s : pub_state)
    (hc : messages = 0 ∨ s.i < messages) (hr : env.running s.n_running = true)
    (hok : 0 ≤ env.transport s.n_transport) :
    ∃ s1, (∀ fuel, offer_iteration env messages (fuel + 1) s = loop_step.again s1) ∧
      s1.i = (s.i + 1) % UINT64_MOD ∧
      s1.message_sent_count = (s.message_sent_count + 1) % UINT64_MOD ∧
      s1.back_pressure_count = s.back_pressure_count ∧
      s1.n_transport = s.n_transport + 1 ∧ s1.n_running = s.n_running + 1 ∧
      (∃ a, s1.attempts = s.attempts ++ [a] ∧ a.index = s.i) ∧
      (∃ d, s1.delivered = s.delivered ++ [d] ∧ d.index = s.i) := by
  obtain ⟨b, hbdef⟩ : ∃ b : pub_state,
      b = offer_build env { s with n_running := s.n_running + 1 } := ⟨_, rfl⟩
  have henter := fun fuel => offer_iteration_enter env messages fuel s hc hr
  rw [← hbdef] at henter
  obtain ⟨f1, f2, f3, f4, f5, f6, f7⟩ :=
    offer_build_frame env { s with n_running := s.n_running + 1 }
  rw [← hbdef] at f1 f2 f3 f4 f5 f6 f7
  simp only [] at f1 f2 f3 f4 f5 f6 f7
  have hacc := fun fuel => offer_retry_accepted env fuel b (by rw [f6]; exact hok)
  obtain ⟨s2, hs2⟩ : ∃ s2 : pub_state, s2 =
      { b with
        n_transport := b.n_transport + 1
        attempts := b.attempts ++ [⟨b.i, b.message_sent_count, b.message_length,
          slice b.message 0 b.message_length, env.transport b.n_transport⟩]
        delivered := b.delivered ++ [⟨b.i, slice b.message 0 b.message_length⟩] } :=
    ⟨_, rfl⟩
  rw [← hs2] at hacc
  refine ⟨{ s2 with
      message_sent_count := (s2.message_sent_count + 1) % UINT64_MOD
      i := (s2.i + 1) % UINT64_MOD }, ?_, ?_, ?_, ?_, ?_, ?_,
    ⟨⟨b.i, b.message_sent_count, b.message_length,
      slice b.message 0 b.message_length, env.transport b.n_transport⟩, ?_, f1⟩,
    ⟨⟨b.i, slice b.message 0 b.message_length⟩, ?_, f1⟩⟩
  · intro fuel
    rw [henter, hacc]
  · show (s2.i + 1) % UINT64_MOD = _
    rw [hs2]
    show (b.i + 1) % UINT64_MOD = _
    rw [f1]
  · show (s2.message_sent_count + 1) % UINT64_MOD = _
    rw [hs2]
    show (b.message_sent_count + 1) % UINT64_MOD = _
    rw [f2]
  · show s2.back_pressure_count = _
    rw [hs2]
    exact f3
  · show s2.n_transport = _
    rw [hs2]
    show b.n_transport + 1 = _
    rw [f6]
  · show s2.n_running = _
    rw [hs2]
    exact f7
  · show s2.attempts = _
    rw [hs2]
    show b.attempts ++ _ = _
    rw [f4]
  · show s2.delivered = _
    rw [hs2]
    show b.delivered ++ _ = _
    rw [f5]

theorem exclusive_accept_run (env : Env) (messages : Nat) (hpos : 1 ≤ messages)
    (hmax : messages < UINT64_MOD) (hrun : ∀ n, env.running n = true)
    (hok : ∀ n, 0 ≤ env.transport n) (d : Nat) :
    ∀ s : pub_state, s.i + d = messages → s.message_sent_count + d < UINT64_MOD →
      ∃ s1, (∀ fuel, d + 1 ≤ fuel →
          exclusive_loop env messages fuel s = loop_step.leave s1) ∧
        s1.i = messages ∧ s1.message_sent_count = s.message_sent_count + d ∧
        s1.back_pressure_count = s.back_pressure_count ∧
        s1.attempts.map (fun a => a.index) =
          s.attempts.map (fun a => a.index) ++ List.range' s.i d ∧
        s1.delivered.map (fun m => m.index) =
          s.delivered.map (fun m => m.index) ++ List.range' s.i d := by
  induction d with
  | zero =>
    intro s hi _
    have hc : ¬ (messages = 0 ∨ s.i < messages) := by omega
    refine ⟨s, ?_, by omega, rfl, rfl, by simp, by simp⟩
    intro fuel hfuel
    obtain ⟨f, rfl⟩ : ∃ f, fuel = f + 1 := ⟨fuel - 1, by omega⟩
    exact exclusive_loop_of_leave env messages f s s
      (exclusive_iteration_finished env messages s hc)
  | succ d ih =>
    intro s hi hsent
    obtain ⟨s1, g1, g2, g3, g4, -, -, g7, g8⟩ :=
      exclusive_loop_accept env messages s (Or.inr (by omega)) (hrun _) (hok _)
    have hi1 : s1.i = s.i + 1 := by
      rw [g2]; apply Nat.mod_eq_of_lt; omega
    have hm1 : s1.message_sent_count = s.message_sent_count + 1 := by
      rw [g3]; apply Nat.mod_eq_of_lt; omega
    obtain ⟨s2, k1, k2, k3, k4, k5, k6⟩ := ih s1 (by omega) (by omega)
    refine ⟨s2, ?_, k2, by omega, by rw [k4, g4], ?_, ?_⟩
    · intro fuel hfuel
      obtain ⟨f, rfl⟩ : ∃ f, fuel = f + 1 := ⟨fuel - 1, by omega⟩
      rw [exclusive_loop_of_again env messages f s s1 g1]
      exact k1 f (by omega)
    · rw [k5, g7, hi1]
      simp [List.range'_succ]
    · rw [k6, g8, hi1]
      simp [List.range'_succ]

theorem offer_accept_run (env : Env) (messages : Nat) (hpos : 1 ≤ messages)
    (hmax : messages < UINT64_MOD) (hrun : ∀ n, env.running n = true)
    (hok : ∀ n, 0 ≤ env.transport n) (d : Nat) :
    ∀ s : pub_state, s.i + d = messages → s.message_sent_count + d < UINT64_MOD →
      ∃ s1, (∀ fuel, d + 1 ≤ fuel →
          offer_loop env messages fuel s = loop_step.leave s1) ∧
        s1.i = messages ∧ s1.message_sent_count = s.message_sent_count + d ∧
        s1.back_pressure_count = s.back_pressure_count ∧
        s1.attempts.map (fun a => a.index) =
          s.attempts.map (fun a => a.index) ++ List.range' s.i d ∧
        s1.delivered.map (fun m => m.index) =
          s.delivered.map (fun m => m.index) ++ List.range' s.i d := by
  induction d with
  | zero =>
    intro s hi _
    have hc : ¬ (messages = 0 ∨ s.i < messages) := by omega
    refine ⟨s, ?_, by omega, rfl, rfl, by simp, by simp⟩
    intro fuel hfuel
    obtain ⟨f, rfl⟩ : ∃ f, fuel = f + 1 := ⟨fuel - 1, by omega⟩
    exact offer_loop_of_leave env messages f s s
      (offer_iteration_finished env messages f s hc)
  | succ d ih =>
    intro s hi hsent
    obtain ⟨s1, g1, g2, g3, g4, -, -, ⟨a, g7, ga⟩, ⟨m, g8, gm⟩⟩ :=
      offer_iteration_accept env messages s (Or.inr (by omega)) (hrun _) (hok _)
    have hi1 : s1.i = s.i + 1 := by
      rw [g2]; apply Nat.mod_eq_of_lt; omega
    have hm1 : s1.message_sent_count = s.message_sent_count + 1 := by
      rw [g3]; apply Nat.mod_eq_of_lt; omega
    obtain ⟨s2, k1, k2, k3, k4, k5, k6⟩ := ih s1 (by omega) (by omega)
    refine ⟨s2, ?_, k2, by omega, by rw [k4, g4], ?_, ?_⟩
    · intro fuel hfuel
      obtain ⟨f, rfl⟩ : ∃ f, fuel = f + 1 + 1 := ⟨fuel - 2, by omega⟩
      rw [offer_loop_of_again env messages (f + 1) s s1 (g1 f)]
      exact k1 (f + 1) (by omega)
    · rw [k5, g7, hi1]
      simp [List.range'_succ, ga]
    · rw [k6, g8, hi1]
      simp [List.range'_succ, gm]

/-- C6. Bounded run without back-pressure. For every target count `N` with
`1 <= N < 2^64`, if every attempt is accepted and the flag is never cleared,
each publish loop, started from the initial state, is left (for every bound of
at least `N + 1` passes) in one and the same state, with
`message_sent_count = N`, `back_pressure_count = 0`, exactly `N` attempts made
and `N` messages delivered, for the indices `0, 1, ..., N-1` in that order. -/
theorem bounded_run (env : Env) (N : Nat) (hpos : 1 ≤ N) (hmax : N < UINT64_MOD)
    (hrun : ∀ n, env.running n = true) (hok : ∀ n, 0 ≤ env.transport n) :
    (∃ s1, (∀ fuel, N + 1 ≤ fuel →
        exclusive_loop env N fuel pub_init = loop_step.leave s1) ∧
      s1.message_sent_count = N ∧ s1.back_pressure_count = 0 ∧
      s1.attempts.length = N ∧ s1.delivered.length = N ∧
      s1.attempts.map (fun a => a.index) = List.range N ∧
      s1.delivered.map (fun m => m.index) = List.range N) ∧
    (∃ s1, (∀ fuel, N + 1 ≤ fuel →
        offer_loop env N fuel pub_init = loop_step.leave s1) ∧
      s1.message_sent_count = N ∧ s1.back_pressure_count = 0 ∧
      s1.attempts.length = N ∧ s1.delivered.length = N ∧
      s1.attempts.map (fun a => a.index) = List.range N ∧
      s1.delivered.map (fun m => m.index) = List.range N) := by
  have hinit : pub_init.i + N = N ∧ pub_init.message_sent_count + N < UINT64_MOD :=
    ⟨Nat.zero_add N, by rw [show pub_init.message_sent_count = 0 from rfl, Nat.zero_add]
                        exact hmax⟩
  constructor
  · obtain ⟨s1, h1, -, h3, h4, h5, h6⟩ :=
      exclusive_accept_run env N hpos hmax hrun hok N pub_init hinit.1 hinit.2
    have e5 : s1.attempts.map (fun a => a.index) = List.range N := by
      rw [h5, List.range_eq_range']; rfl
    have e6 : s1.delivered.map (fun m => m.index) = List.range N := by
      rw [h6, List.range_eq_range']; rfl
    refine ⟨s1, h1, by rw [h3]; exact Nat.zero_add N, h4, ?_, ?_, e5, e6⟩
    · have := congrArg List.length e5
      simpa using this
    · have := congrArg List.length e6
      simpa using this
  · obtain ⟨s1, h1, -, h3, h4, h5, h6⟩ :=
      offer_accept_run env N hpos hmax hrun hok N pub_init hinit.1 hinit.2
    have e5 : s1.attempts.map (fun a => a.index) = List.range N := by
      rw [h5, List.range_eq_range']; rfl
    have e6 : s1.delivered.map (fun m => m.index) = List.range N := by
      rw [h6, List.range_eq_range']; rfl
    refine ⟨s1, h1, by rw [h3]; exact Nat.zero_add N, h4, ?_, ?_, e5, e6⟩
    · have := congrArg List.length e5
      simpa using this
    · have := congrArg List.length e6
      simpa using this

/-- C6, at `N = 4` with every attempt accepted: both loops are left with
`message_sent_count = 4`, `back_pressure_count = 0`, four attempts, and
deliveries for the indices 0, 1, 2, 3. -/
theorem bounded_run_witness :
    (∃ s1, exclusive_loop env_accept_all 4 5 pub_init = loop_step.leave s1 ∧
      s1.message_sent_count = 4 ∧ s1.back_pressure_count = 0 ∧
      s1.attempts.length = 4 ∧ s1.delivered.map (fun m => m.index) = [0, 1, 2, 3]) ∧
    (∃ s1, offer_loop env_accept_all 4 5 pub_init = loop_step.leave s1 ∧
      s1.message_sent_count = 4 ∧ s1.back_pressure_count = 0 ∧
      s1.attempts.length = 4 ∧ s1.delivered.map (fun m => m.index) = [0, 1, 2, 3]) := by
  obtain ⟨⟨s1, a1, a2, a3, a4, -, -, a7⟩, ⟨s2, b1, b2, b3, b4, -, -, b7⟩⟩ :=
    bounded_run env_accept_all 4 (by decide) (by decide) (fun _ => rfl)
      (fun _ => show (0 : Int) ≤ 64 by decide)
  exact ⟨⟨s1, a1 5 (by decide), a2, a3, a4, a7⟩, ⟨s2, b1 5 (by decide), b2, b3, b4, b7⟩⟩

/-! ### Alternation of record kinds -/

theorem exclusive_fill_records (env : Env) (s : pub_state) :
    (is_trade_record s.trade → is_trade_record (exclusive_fill env s).trade) ∧
    (is_quote_record s.quote → is_quote_record (exclusive_fill env s).quote) := by
  unfold exclusive_fill
  split
  · exact ⟨fun h => h, fun h => h⟩
  · exact ⟨fun h => h, fun h => h⟩

theorem offer_build_records (env : Env) (s : pub_state) :
    (is_trade_record s.trade → is_trade_record (offer_build env s).trade) ∧
    (is_quote_record s.quote → is_quote_record (offer_build env s).quote) := by
  unfold offer_build
  split
  · exact ⟨fun h => h, fun h => h⟩
  · exact ⟨fun h => h, fun h => h⟩

theorem exclusive_accept_records (env : Env) (messages : Nat) (s : pub_state)
    (hc : messages = 0 ∨ s.i < messages) (hr : env.running s.n_running = true)
    (hok : 0 ≤ env.transport s.n_transport) :
    ∃ s1, exclusive_iteration env messages s = loop_step.again s1 ∧
      s1.attempts = s.attempts ++ [⟨s.i, s.message_sent_count,
        if s.i % 2 = 0 then sizeof_nms_opra_trade_t + 1 else sizeof_nms_opra_quote_t + 1,
        [], env.transport s.n_transport⟩] ∧
      s1.delivered = s.delivered ++
        [⟨s.i, if s.i % 2 = 0 then 116 :: trade_bytes env.big_endian s1.trade
               else 113 :: quote_bytes env.big_endian s1.quote⟩] ∧
      (is_trade_record s.trade → is_trade_record s1.trade) ∧
      (is_quote_record s.quote → is_quote_record s1.quote) := by
  refine ⟨_, exclusive_iteration_accept env messages s hc hr hok, ?_, ?_, ?_, ?_⟩
  · show (exclusive_fill env _).attempts = _
    rw [(exclusive_fill_frame env _).2.2.2.1]
  · show (exclusive_fill env _).delivered = _
    rw [exclusive_fill_delivered env _ (by simp only [sizeof_quote_eq, sizeof_trade_eq])]
  · intro h
    show is_trade_record (exclusive_fill env _).trade
    exact (exclusive_fill_records env _).1 h
  · intro h
    show is_quote_record (exclusive_fill env _).quote
    exact (exclusive_fill_records env _).2 h

theorem exclusive_iteration_inv (env : Env) (messages : Nat) (s : pub_state)
    (h : exclusive_inv env s) :
    exclusive_inv env (exclusive_iteration env messages s).state := by
  obtain ⟨ht, hq, ha, hd⟩ := h
  have hnew : ∀ r : Int, exclusive_attempt_ok ⟨s.i, s.message_sent_count,
      if s.i % 2 = 0 then sizeof_nms_opra_trade_t + 1 else sizeof_nms_opra_quote_t + 1,
      [], r⟩ := by
    intro r
    simp only [exclusive_attempt_ok, sizeof_quote_eq, sizeof_trade_eq]
  have hatt : ∀ r : Int, ∀ a ∈ s.attempts ++ [(⟨s.i, s.message_sent_count,
      if s.i % 2 = 0 then sizeof_nms_opra_trade_t + 1 else sizeof_nms_opra_quote_t + 1,
      [], r⟩ : attempt)], exclusive_attempt_ok a := by
    intro r a hmem
    rcases List.mem_append.mp hmem with h1 | h1
    · exact ha a h1
    · rw [List.mem_singleton] at h1
      subst h1
      exact hnew r
  by_cases hc : messages = 0 ∨ s.i < messages
  · by_cases hr : env.running s.n_running = true
    · by_cases he : env.transport s.n_transport = AERON_PUBLICATION_ERROR
      · rw [exclusive_iteration_error env messages s hc hr he]
        exact ⟨ht, hq, hatt _, hd⟩
      · by_cases hneg : env.transport s.n_transport < 0
        · rw [exclusive_iteration_retry env messages s hc hr hneg he]
          exact ⟨ht, hq, hatt _, hd⟩
        · obtain ⟨s1, hit, hat, hdl, hrt, hrq⟩ :=
            exclusive_accept_records env messages s hc hr (by omega)
          rw [hit]
          refine ⟨hrt ht, hrq hq, ?_, ?_⟩
          · show ∀ a ∈ s1.attempts, _
            rw [hat]
            exact hatt _
          · show ∀ m ∈ s1.delivered, _
            rw [hdl]
            intro m hmem
            rcases List.mem_append.mp hmem with h1 | h1
            · exact hd m h1
            · rw [List.mem_singleton] at h1
              subst h1
              constructor
              · intro hp
                have hp0 : s.i % 2 = 0 := hp
                refine ⟨s1.trade, hrt ht, ?_⟩
                show (if s.i % 2 = 0 then _ else _) = _
                rw [if_pos hp0]
              · intro hp
                have hp0 : ¬ s.i % 2 = 0 := by
                  have hp1 : s.i % 2 = 1 := hp
                  omega
                refine ⟨s1.quote, hrq hq, ?_⟩
                show (if s.i % 2 = 0 then _ else _) = _
                rw [if_neg hp0]
    · have hr0 : env.running s.n_running = false := by
        cases hv : env.running s.n_running
        · rfl
        · exact absurd hv hr
      rw [exclusive_iteration_cancelled env messages s hc hr0]
      exact ⟨ht, hq, ha, hd⟩
  · rw [exclusive_iteration_finished env messages s hc]
    exact ⟨ht, hq, ha, hd⟩

theorem exclusive_loop_inv (env : Env) (messages fuel : Nat) :
    ∀ s : pub_state, exclusive_inv env s →
      exclusive_inv env (exclusive_loop env messages fuel s).state := by
  induction fuel with
  | zero => intro s h; exact h
  | succ fuel ih =>
    intro s h
    have hstep := exclusive_iteration_inv env messages s h
    simp only [exclusive_loop]
    cases hit : exclusive_iteration env messages s with
    | again s1 => rw [hit] at hstep; exact ih s1 hstep
    | leave s1 => rw [hit] at hstep; exact hstep
    | spent s1 => rw [hit] at hstep; exact hstep

theorem offer_data_ok_length (be : Bool) (index length : Nat) (data : List Nat)
    (h : offer_data_ok be index length data) :
    offer_data_ok be index data.length data := by
  constructor
  · intro hp
    obtain ⟨-, t, ht, hdata⟩ := h.1 hp
    exact ⟨by rw [hdata, trade_bytes_length], t, ht, hdata⟩
  · intro hp
    obtain ⟨-, q, hq, hdata⟩ := h.2 hp
    exact ⟨by rw [hdata, quote_bytes_length], q, hq, hdata⟩

theorem offer_retry_inv (env : Env) (fuel : Nat) :
    ∀ s : pub_state, offer_inv env s →
      offer_data_ok env.big_endian s.i s.message_length
        (slice s.message 0 s.message_length) →
      offer_inv env (offer_retry env fuel s).state := by
  induction fuel with
  | zero => intro s h _; exact h
  | succ fuel ih =>
    intro s h hmsg
    obtain ⟨ht, hq, ha, hd⟩ := h
    have hatt : ∀ a ∈ s.attempts ++ [(⟨s.i, s.message_sent_count, s.message_length,
        slice s.message 0 s.message_length, env.transport s.n_transport⟩ : attempt)],
        offer_data_ok env.big_endian a.index a.length a.data := by
      intro a hmem
      rcases List.mem_append.mp hmem with h1 | h1
      · exact ha a h1
      · rw [List.mem_singleton] at h1
        subst h1
        exact hmsg
    by_cases hneg : env.transport s.n_transport < 0
    · cases hr : env.running s.n_running with
      | true =>
        rw [offer_retry_negative env fuel s hneg hr]
        exact ih _ ⟨ht, hq, hatt, hd⟩ hmsg
      | false =>
        rw [offer_retry_cancelled env fuel s hneg hr]
        exact ⟨ht, hq, hatt, hd⟩
    · rw [offer_retry_accepted env fuel s (by omega)]
      refine ⟨ht, hq, hatt, ?_⟩
      intro m hmem
      rcases List.mem_append.mp hmem with h1 | h1
      · exact hd m h1
      · rw [List.mem_singleton] at h1
        subst h1
        exact offer_data_ok_length env.big_endian s.i s.message_length _ hmsg

theorem offer_iteration_inv (env : Env) (messages fuel : Nat) (s : pub_state)
    (h : offer_inv env s) :
    offer_inv env (offer_iteration env messages fuel s).state := by
  by_cases hc : messages = 0 ∨ s.i < messages
  · cases hr : env.running s.n_running with
    | false =>
      rw [offer_iteration_cancelled env messages fuel s hc hr]
      exact h
    | true =>
      rw [offer_iteration_enter env messages fuel s hc hr]
      obtain ⟨b, hbdef⟩ : ∃ b : pub_state,
          b = offer_build env { s with n_running := s.n_running + 1 } := ⟨_, rfl⟩
      rw [← hbdef]
      obtain ⟨f1, -, -, f4, f5, -, -⟩ :=
        offer_build_frame env { s with n_running := s.n_running + 1 }
      obtain ⟨m1, m2⟩ := offer_build_message env { s with n_running := s.n_running + 1 }
      obtain ⟨r1, r2⟩ := offer_build_records env { s with n_running := s.n_running + 1 }
      rw [← hbdef] at f1 f4 f5 m1 m2 r1 r2
      simp only [] at f1 f4 f5 m1 m2 r1 r2
      have hb : offer_inv env b :=
        ⟨r1 h.1, r2 h.2.1, by rw [f4]; exact h.2.2.1, by rw [f5]; exact h.2.2.2⟩
      have hmsg : offer_data_ok env.big_endian b.i b.message_length
          (slice b.message 0 b.message_length) := by
        rw [m2, m1, f1]
        constructor
        · intro hp
          simp only [hp, if_true]
          exact ⟨trivial, b.trade, r1 h.1, rfl⟩
        · intro hp
          have hp0 : ¬ s.i % 2 = 0 := by omega
          simp only [hp0, if_false]
          exact ⟨trivial, b.quote, r2 h.2.1, rfl⟩
      have hres := offer_retry_inv env fuel b hb hmsg
      cases hret : offer_retry env fuel b with
      | again s2 => rw [hret] at hres; exact hres
      | leave s2 => rw [hret] at hres; exact hres
      | spent s2 => rw [hret] at hres; exact hres
  · rw [offer_iteration_finished env messages fuel s hc]
    exact h

theorem offer_loop_inv (env : Env) (messages fuel : Nat) :
    ∀ s : pub_state, offer_inv env s →
      offer_inv env (offer_loop env messages fuel s).state := by
  induction fuel with
  | zero => intro s h; exact h
  | succ fuel ih =>
    intro s h
    have hstep := offer_iteration_inv env messages fuel s h
    simp only [offer_loop]
    cases hit : offer_iteration env messages fuel s with
    | again s1 => rw [hit] at hstep; exact ih s1 hstep
    | leave s1 => rw [hit] at hstep; exact hstep
    | spent s1 => rw [hit] at hstep; exact hstep

theorem pub_init_exclusive_inv (env : Env) : exclusive_inv env pub_init :=
  ⟨⟨rfl, rfl, rfl, rfl⟩, ⟨rfl, rfl, rfl, rfl, rfl⟩,
    fun _ h => absurd h (List.not_mem_nil _), fun _ h => absurd h (List.not_mem_nil _)⟩

theorem pub_init_offer_inv (env : Env) : offer_inv env pub_init :=
  ⟨⟨rfl, rfl, rfl, rfl⟩, ⟨rfl, rfl, rfl, rfl, rfl⟩,
    fun _ h => absurd h (List.not_mem_nil _), fun _ h => absurd h (List.not_mem_nil _)⟩

/-- C2. Alternation invariant. Whatever the transport and the flag do, and
however long either publish loop has run from the initial state, every attempt
and every delivered message recorded so far is of the kind selected by the
parity of its index. Exclusive loop: the length claimed is 31 for an even index
and 40 for an odd one, and a committed message is the tag 't' (116) followed by
a trade record (31 bytes) for an even index, the tag 'q' (113) followed by a
quote record (40 bytes) for an odd one. Shared loop: what is offered is a trade
record (30 bytes) for an even index and a quote record (39 bytes) for an odd
one. With four messages and no back-pressure the kinds are trade, quote, trade,
quote. -/
theorem alternation (env : Env) (messages fuel : Nat) :
    (∀ a ∈ (exclusive_loop env messages fuel pub_init).state.attempts,
      (a.index % 2 = 0 → a.length = 31) ∧ (a.index % 2 = 1 → a.length = 40)) ∧
    (∀ m ∈ (exclusive_loop env messages fuel pub_init).state.delivered,
      (m.index % 2 = 0 → m.data.length = 31 ∧
        ∃ t, is_trade_record t ∧ m.data = 116 :: trade_bytes env.big_endian t) ∧
      (m.index % 2 = 1 → m.data.length = 40 ∧
        ∃ q, is_quote_record q ∧ m.data = 113 :: quote_bytes env.big_endian q) ∧
      (m.data.head? = some 116 ↔ m.index % 2 = 0) ∧
      (m.data.head? = some 113 ↔ m.index % 2 = 1)) ∧
    (∀ a ∈ (offer_loop env messages fuel pub_init).state.attempts,
      (a.index % 2 = 0 → a.length = 30 ∧
        ∃ t, is_trade_record t ∧ a.data = trade_bytes env.big_endian t) ∧
      (a.index % 2 = 1 → a.length = 39 ∧
        ∃ q, is_quote_record q ∧ a.data = quote_bytes env.big_endian q)) ∧
    (∀ m ∈ (offer_loop env messages fuel pub_init).state.delivered,
      (m.index % 2 = 0 → m.data.length = 30 ∧
        ∃ t, is_trade_record t ∧ m.data = trade_bytes env.big_endian t) ∧
      (m.index % 2 = 1 → m.data.length = 39 ∧
        ∃ q, is_quote_record q ∧ m.data = quote_bytes env.big_endian q)) ∧
    (exclusive_loop env_accept_all 4 5 pub_init).state.delivered.map
        (fun m => (m.index, m.data.head?, m.data.length)) =
      [(0, some 116, 31), (1, some 113, 40), (2, some 116, 31), (3, some 113, 40)] ∧
    (offer_loop env_accept_all 4 5 pub_init).state.delivered.map
        (fun m => (m.index, m.data.length, slice m.data 5 1)) =
      [(0, 30, [84]), (1, 39, [76]), (2, 30, [84]), (3, 39, [76])] := by
  obtain ⟨-, -, hxa, hxd⟩ :=
    exclusive_loop_inv env messages fuel pub_init (pub_init_exclusive_inv env)
  obtain ⟨-, -, hoa, hod⟩ :=
    offer_loop_inv env messages fuel pub_init (pub_init_offer_inv env)
  refine ⟨?_, ?_, hoa, hod, by decide, by decide⟩
  · intro a ha
    have h := hxa a ha
    unfold exclusive_attempt_ok at h
    constructor
    · intro hp; rw [h, if_pos hp]
    · intro hp; rw [h, if_neg (by omega)]
  · intro m hm
    obtain ⟨h0, h1⟩ := hxd m hm
    have hpar : m.index % 2 = 0 ∨ m.index % 2 = 1 := by omega
    refine ⟨?_, ?_, ?_, ?_⟩
    · intro hp
      obtain ⟨t, ht, hdata⟩ := h0 hp
      exact ⟨by rw [hdata, List.length_cons, trade_bytes_length], t, ht, hdata⟩
    · intro hp
      obtain ⟨q, hq, hdata⟩ := h1 hp
      exact ⟨by rw [hdata, List.length_cons, quote_bytes_length], q, hq, hdata⟩
    · rcases hpar with hp | hp
      · obtain ⟨t, -, hdata⟩ := h0 hp
        simp [hdata, hp]
      · obtain ⟨q, -, hdata⟩ := h1 hp
        simp [hdata, hp]
    · rcases hpar with hp | hp
      · obtain ⟨t, -, hdata⟩ := h0 hp
        simp [hdata, hp]
      · obtain ⟨q, -, hdata⟩ := h1 hp
        simp [hdata, hp]

/-- C2, at a concrete run: four messages, every attempt accepted. The first
attempt of the exclusive loop is for index 0 with length 31, and the second
offer of the shared loop is for index 1 with length 39. -/
theorem alternation_witness :
    ((⟨0, 0, 31, [], 64⟩ : attempt) ∈
        (exclusive_loop env_accept_all 4 5 pub_init).state.attempts ∧
      (⟨0, 0, 31, [], 64⟩ : attempt).length = 31) ∧
    ((⟨1, 1, 39, quote_bytes false { quote_template with timestamp := 1001 }, 64⟩ :
          attempt) ∈ (offer_loop env_accept_all 4 5 pub_init).state.attempts ∧
      (⟨1, 1, 39, quote_bytes false { quote_template with timestamp := 1001 }, 64⟩ :
          attempt).length = 39) :=
  ⟨⟨by decide, ((alternation env_accept_all 4 5).1 _ (by decide)).1 (by decide)⟩,
    ⟨by decide, (((alternation env_accept_all 4 5).2.2.1 _ (by decide)).2 (by decide)).1⟩⟩

/-! ### Exit status -/

theorem pub_main_after_error (env : Env) (messages fuel : Nat)
    (hr : env.running 0 = true)
    (he : env.transport 0 = AERON_PUBLICATION_ERROR) :
    pub_main true true env messages (fuel + 1) = some EXIT_SUCCESS := by
  have hc : messages = 0 ∨ pub_init.i < messages := by
    show messages = 0 ∨ 0 < messages
    omega
  have h := exclusive_iteration_error env messages pub_init hc hr he
  have hl := exclusive_loop_of_leave env messages fuel pub_init _ h
  simp only [pub_main, publish_loop, if_true, hl]

theorem sub_main_after_poll_error (env : sub_env) (p : Bool) (limit fuel : Nat)
    (hs : env.sigint 0 = false) (he : env.fragments_read 0 < 0) :
    sub_main true p limit env (fuel + 1) = some EXIT_FAILURE := by
  simp [sub_main, sub_loop, hs, he, is_running, sub_init]

theorem sub_main_after_sigint (env : sub_env) (p : Bool) (limit fuel : Nat)
    (hs : env.sigint 0 = true) :
    sub_main true p limit env (fuel + 1) = some EXIT_SUCCESS := by
  simp [sub_main, sub_loop, hs, is_running, sub_init, sigint_handler]

/-- C11, the publisher at the failing input: exclusive path, one message to
send, the first `try_claim` returns `AERON_PUBLICATION_ERROR`. The loop is left
by the `break` of line 297 with nothing delivered, and `main` still returns
`EXIT_SUCCESS` (0). The subscriber, whose second poll returns -1, returns
`EXIT_FAILURE` (1); with a limit of 3 reached, or after a SIGINT, it returns 0,
as the publisher does after sending its count or after cancellation. -/
theorem pub_error_exit_success :
    (exclusive_loop env_transport_error 1 1 pub_init).left = true ∧
    (exclusive_loop env_transport_error 1 1 pub_init).state.attempts.map
        (fun a => a.result) = [AERON_PUBLICATION_ERROR] ∧
    (exclusive_loop env_transport_error 1 1 pub_init).state.delivered.length = 0 ∧
    pub_main true true env_transport_error 1 1 = some 0 ∧
    sub_main true false 0 sub_env_poll_error 2 = some 1 ∧
    sub_main true false 3 sub_env_steady 4 = some 0 ∧
    sub_main true false 0 sub_env_sigint 3 = some 0 ∧
    pub_main true true env_accept_all 2 3 = some 0 ∧
    pub_main true false env_accept_all 2 3 = some 0 ∧
    pub_main true true env_cancel_during_retry 2 2 = some 0 ∧
    pub_main true false env_cancel_during_retry 2 2 = some 0 := by
  decide

/-! ### Variation arithmetic of the exclusive path -/

theorem to_xuint8_shift (i : Nat) : to_xuint8 ((i % 26 : Nat) : Int) = i % 26 := by
  unfold to_xuint8
  omega

theorem to_xuint8_plus (c k : Nat) (hc : c ≤ 97) (h : k < 26) :
    to_xuint8 ((c : Int) + (k : Int)) = c + k := by
  unfold to_xuint8
  omega

theorem to_xuint8_minus (k : Nat) (h : k < 26) : to_xuint8 (90 - (k : Int)) + k = 90 := by
  unfold to_xuint8
  omega

theorem to_xuint32_plus (c k : Nat) (hc : c ≤ 201) (h : k < 26) :
    to_xuint32 ((c : Int) + (k : Int)) = c + k := by
  unfold to_xuint32
  omega

theorem to_xuint32_minus (k : Nat) (h : k < 26) :
    to_xuint32 (199 - (k : Int)) + k = 199 := by
  unfold to_xuint32
  omega

theorem exclusive_fill_values (env : Env) (s : pub_state) :
    (s.i % 2 = 0 → trade_varied s.i (exclusive_fill env s).trade) ∧
    (s.i % 2 = 1 → quote_varied s.i (exclusive_fill env s).quote) := by
  have hlt : s.i % 26 < 26 := Nat.mod_lt _ (by decide)
  constructor
  · intro hp
    unfold exclusive_fill
    simp only [hp, if_true, to_xuint8_shift]
    exact ⟨to_xuint8_plus 97 _ (by decide) hlt, to_xuint8_plus 65 _ (by decide) hlt,
      to_xuint32_plus 100 _ (by decide) hlt⟩
  · intro hp
    have hp0 : ¬ s.i % 2 = 0 := by omega
    unfold exclusive_fill
    simp only [hp0, if_false, to_xuint8_shift]
    exact ⟨to_xuint8_plus 97 _ (by decide) hlt, to_xuint8_plus 65 _ (by decide) hlt,
      to_xuint8_minus _ hlt, to_xuint32_plus 201 _ (by decide) hlt,
      to_xuint32_minus _ hlt⟩

theorem exclusive_accept_values (env : Env) (messages : Nat) (s : pub_state)
    (hc : messages = 0 ∨ s.i < messages) (hr : env.running s.n_running = true)
    (hok : 0 ≤ env.transport s.n_transport) :
    ∃ s1, exclusive_iteration env messages s = loop_step.again s1 ∧
      s1.delivered = s.delivered ++
        [⟨s.i, if s.i % 2 = 0 then 116 :: trade_bytes env.big_endian s1.trade
               else 113 :: quote_bytes env.big_endian s1.quote⟩] ∧
      (s.i % 2 = 0 → trade_varied s.i s1.trade) ∧
      (s.i % 2 = 1 → quote_varied s.i s1.quote) := by
  refine ⟨_, exclusive_iteration_accept env messages s hc hr hok, ?_, ?_, ?_⟩
  · show (exclusive_fill env _).delivered = _
    rw [exclusive_fill_delivered env _ (by simp only [sizeof_quote_eq, sizeof_trade_eq])]
  · intro hp
    show trade_varied _ (exclusive_fill env _).trade
    exact (exclusive_fill_values env _).1 hp
  · intro hp
    show quote_varied _ (exclusive_fill env _).quote
    exact (exclusive_fill_values env _).2 hp

theorem exclusive_iteration_varied (env : Env) (messages : Nat) (s : pub_state)
    (hd : ∀ m ∈ s.delivered, exclusive_varied_ok env.big_endian m) :
    ∀ m ∈ (exclusive_iteration env messages s).state.delivered,
      exclusive_varied_ok env.big_endian m := by
  by_cases hc : messages = 0 ∨ s.i < messages
  · cases hr : env.running s.n_running with
    | false =>
      rw [exclusive_iteration_cancelled env messages s hc hr]
      exact hd
    | true =>
      by_cases he : env.transport s.n_transport = AERON_PUBLICATION_ERROR
      · rw [exclusive_iteration_error env messages s hc hr he]
        exact hd
      · by_cases hneg : env.transport s.n_transport < 0
        · rw [exclusive_iteration_retry env messages s hc hr hneg he]
          exact hd
        · obtain ⟨s1, hit, hdl, hvt, hvq⟩ :=
            exclusive_accept_values env messages s hc hr (by omega)
          rw [hit]
          show ∀ m ∈ s1.delivered, _
          rw [hdl]
          intro m hmem
          rcases List.mem_append.mp hmem with h1 | h1
          · exact hd m h1
          · rw [List.mem_singleton] at h1
            subst h1
            constructor
            · intro hp
              have hp0 : s.i % 2 = 0 := hp
              refine ⟨s1.trade, hvt hp0, ?_⟩
              show (if s.i % 2 = 0 then _ else _) = _
              rw [if_pos hp0]
            · intro hp
              have hp1 : s.i % 2 = 1 := hp
              have hp0 : ¬ s.i % 2 = 0 := by omega
              refine ⟨s1.quote, hvq hp1, ?_⟩
              show (if s.i % 2 = 0 then _ else _) = _
              rw [if_neg hp0]
  · rw [exclusive_iteration_finished env messages s hc]
    exact hd

theorem exclusive_loop_varied (env : Env) (messages fuel : Nat) :
    ∀ s : pub_state, (∀ m ∈ s.delivered, exclusive_varied_ok env.big_endian m) →
      ∀ m ∈ (exclusive_loop env messages fuel s).state.delivered,
        exclusive_varied_ok env.big_endian m := by
  induction fuel with
  | zero => intro s h; exact h
  | succ fuel ih =>
    intro s h
    have hstep := exclusive_iteration_varied env messages s h
    simp only [exclusive_loop]
    cases hit : exclusive_iteration env messages s with
    | again s1 => rw [hit] at hstep; exact ih s1 hstep
    | leave s1 => rw [hit] at hstep; exact hstep
    | spent s1 => rw [hit] at hstep; exact hstep

/-- C12. In the exclusive path no variation arithmetic wraps or truncates. For
every index `i`, `shift = i mod 26` survives the conversion to `xuint8` and
lies in 0..25. For an even `i` the trade written after the claim has condition
`'a' + shift` in 97..122, exchange `'A' + shift` in 65..90 and volume
`100 + shift` in 100..125; for an odd `i` the quote has condition `'a' + shift`
in 97..122, ask exchange `'A' + shift` and bid exchange `'Z' - shift` in 65..90,
ask size `201 + shift` in 201..226 and bid size `199 - shift` in 174..199.
Hence every quote committed by the exclusive loop, from the initial state and
under any transport and flag behaviour, has `bid_size < ask_size` and
`bid_size + ask_size = 400`. -/
theorem variation_in_range (env : Env) (messages fuel : Nat) (s : pub_state) :
    (to_xuint8 ((s.i % 26 : Nat) : Int) = s.i % 26 ∧ s.i % 26 ≤ 25) ∧
    (s.i % 2 = 0 →
      (exclusive_fill env s).trade.condition = 97 + s.i % 26 ∧
      97 ≤ (exclusive_fill env s).trade.condition ∧
      (exclusive_fill env s).trade.condition ≤ 122 ∧
      (exclusive_fill env s).trade.exchange = 65 + s.i % 26 ∧
      65 ≤ (exclusive_fill env s).trade.exchange ∧
      (exclusive_fill env s).trade.exchange ≤ 90 ∧
      (exclusive_fill env s).trade.volume = 100 + s.i % 26 ∧
      100 ≤ (exclusive_fill env s).trade.volume ∧
      (exclusive_fill env s).trade.volume ≤ 125) ∧
    (s.i % 2 = 1 →
      (exclusive_fill env s).quote.condition = 97 + s.i % 26 ∧
      97 ≤ (exclusive_fill env s).quote.condition ∧
      (exclusive_fill env s).quote.condition ≤ 122 ∧
      (exclusive_fill env s).quote.ask_exchange = 65 + s.i % 26 ∧
      65 ≤ (exclusive_fill env s).quote.ask_exchange ∧
      (exclusive_fill env s).quote.ask_exchange ≤ 90 ∧
      (exclusive_fill env s).quote.bid_exchange + s.i % 26 = 90 ∧
      65 ≤ (exclusive_fill env s).quote.bid_exchange ∧
      (exclusive_fill env s).quote.bid_exchange ≤ 90 ∧
      (exclusive_fill env s).quote.ask_size = 201 + s.i % 26 ∧
      201 ≤ (exclusive_fill env s).quote.ask_size ∧
      (exclusive_fill env s).quote.ask_size ≤ 226 ∧
      (exclusive_fill env s).quote.bid_size + s.i % 26 = 199 ∧
      174 ≤ (exclusive_fill env s).quote.bid_size ∧
      (exclusive_fill env s).quote.bid_size ≤ 199 ∧
      (exclusive_fill env s).quote.bid_size < (exclusive_fill env s).quote.ask_size ∧
      (exclusive_fill env s).quote.bid_size + (exclusive_fill env s).quote.ask_size = 400) ∧
    (∀ m ∈ (exclusive_loop env messages fuel pub_init).state.delivered,
      m.index % 2 = 1 →
      ∃ q, m.data = 113 :: quote_bytes env.big_endian q ∧
        q.bid_size < q.ask_size ∧ q.bid_size + q.ask_size = 400 ∧
        174 ≤ q.bid_size ∧ q.bid_size ≤ 199 ∧ 201 ≤ q.ask_size ∧ q.ask_size ≤ 226 ∧
        97 ≤ q.condition ∧ q.condition ≤ 122 ∧
        65 ≤ q.ask_exchange ∧ q.ask_exchange ≤ 90 ∧
        65 ≤ q.bid_exchange ∧ q.bid_exchange ≤ 90) ∧
    (∀ m ∈ (exclusive_loop env messages fuel pub_init).state.delivered,
      m.index % 2 = 0 →
      ∃ t, m.data = 116 :: trade_bytes env.big_endian t ∧
        97 ≤ t.condition ∧ t.condition ≤ 122 ∧
        65 ≤ t.exchange ∧ t.exchange ≤ 90 ∧
        100 ≤ t.volume ∧ t.volume ≤ 125) := by
  have hlt : s.i % 26 < 26 := Nat.mod_lt _ (by decide)
  have hloop := exclusive_loop_varied env messages fuel pub_init
    (fun _ h => absurd h (List.not_mem_nil _))
  refine ⟨⟨to_xuint8_shift s.i, by omega⟩, ?_, ?_, ?_, ?_⟩
  · intro hp
    obtain ⟨h1, h2, h3⟩ := (exclusive_fill_values env s).1 hp
    refine ⟨h1, ?_, ?_, h2, ?_, ?_, h3, ?_, ?_⟩ <;> omega
  · intro hp
    obtain ⟨h1, h2, h3, h4, h5⟩ := (exclusive_fill_values env s).2 hp
    refine ⟨h1, ?_, ?_, h2, ?_, ?_, h3, ?_, ?_, h4, ?_, ?_, h5, ?_, ?_, ?_, ?_⟩ <;> omega
  · intro m hm hp
    obtain ⟨q, ⟨h1, h2, h3, h4, h5⟩, hdata⟩ := (hloop m hm).2 hp
    have hr : m.index % 26 < 26 := Nat.mod_lt _ (by decide)
    refine ⟨q, hdata, ?_, ?_, ?_, ?_, ?_, ?_, ?_, ?_, ?_, ?_, ?_, ?_⟩ <;> omega
  · intro m hm hp
    obtain ⟨t, ⟨h1, h2, h3⟩, hdata⟩ := (hloop m hm).1 hp
    have hr : m.index % 26 < 26 := Nat.mod_lt _ (by decide)
    refine ⟨t, hdata, ?_, ?_, ?_, ?_, ?_, ?_⟩ <;> omega

/-- C12, at a concrete state: the initial state advanced to index 51 (odd,
`shift = 25`, the largest): the quote written has bid size 174, ask size 226,
bid exchange 'A' (65), ask exchange 'Z' (90) and condition 'z' (122). -/
theorem variation_in_range_witness :
    (exclusive_fill env_accept_all { pub_init with i := 51 }).quote.bid_size + 51 % 26 = 199 ∧
    (exclusive_fill env_accept_all { pub_init with i := 51 }).quote.ask_size = 201 + 51 % 26 ∧
    (exclusive_fill env_accept_all { pub_init with i := 51 }).quote.bid_exchange + 51 % 26 = 90 ∧
    (exclusive_fill env_accept_all { pub_init with i := 51 }).quote.condition = 97 + 51 % 26 ∧
    (exclusive_fill env_accept_all { pub_init with i := 51 }).quote.bid_size +
      (exclusive_fill env_accept_all { pub_init with i := 51 }).quote.ask_size = 400 :=
  have h := (variation_in_range env_accept_all 0 0 { pub_init with i := 51 }).2.2.1
    (by decide)
  ⟨h.2.2.2.2.2.2.2.2.2.2.2.2.1, h.2.2.2.2.2.2.2.2.2.1, h.2.2.2.2.2.2.1, h.1,
    h.2.2.2.2.2.2.2.2.2.2.2.2.2.2.2.2⟩

end AeronBench
